import Mathlib

/-!
# Tizonia OpenMAX IL: Chromecast access daemon and MP4 demuxer source processor

Part 1 embeds `cast/tizcastd/src/tizcastd.cpp`: the daemon object `tizcastd`, its
constructor, its eight D-Bus commands and the media-status callback.  The client
library (`tiz_chromecast_*`) is external to the file; it is represented by the
list of calls it has received and by an arbitrary answer function over that
list, so that every theorem holds for every behaviour of the library.

Part 2 covers the source processor declared in
`plugins/mp4_demuxer/src/mp4dmuxsrcprc_decls.h`.
-/

set_option linter.dupNamespace false
set_option linter.unusedVariables false

namespace Cast

/-- Null pointer. -/
def NULL : Nat := 0

/-- Error codes of `tiz_cast_error_t` that `tizcastd.cpp` names.  The header
`tizcasttypes.h` that declares the enumeration is not among the files embedded
here; the three enumerators used by the daemon are taken as distinct values. -/
inductive tiz_cast_error_t
  | TIZ_CAST_SUCCESS
  | TIZ_CAST_URL_LOAD_FAILURE
  | TIZ_CAST_CC_CMD_FAILURE
  deriving DecidableEq, Repr

open tiz_cast_error_t

/-- One call received by the client library.  The first argument of every call
but `tiz_chromecast_init` is the client handle (`tiz_chromecast_t *`) handed
over by the caller.  `tiz_chromecast_init` receives the database name and the
user-data pointer; its callback argument is always `cc_new_media_status_cback`. -/
inductive cc_call
  | tiz_chromecast_init (ap_dbname : String) (ap_user_data : Nat)
  | tiz_chromecast_destroy (p_cc : Nat)
  | tiz_chromecast_load_url (p_cc : Nat) (url mime_type title : String)
  | tiz_chromecast_play (p_cc : Nat)
  | tiz_chromecast_stop (p_cc : Nat)
  | tiz_chromecast_pause (p_cc : Nat)
  | tiz_chromecast_volume_up (p_cc : Nat)
  | tiz_chromecast_volume_down (p_cc : Nat)
  | tiz_chromecast_mute (p_cc : Nat)
  | tiz_chromecast_unmute (p_cc : Nat)
  deriving DecidableEq, Repr

/-- The client library as seen from the daemon: `ret tr c` is the `int` the
library returns for call `c` after having received the calls `tr`; `init_out tr
dbname` is the handle `tiz_chromecast_init` stores through its out parameter
(`none` when it stores nothing). -/
structure chromecast_lib where
  ret : List cc_call → cc_call → Int
  init_out : List cc_call → String → Option Nat

/-- Performing one library call: the answer, and the trace with the call appended. -/
def chromecast_lib.call (lib : chromecast_lib) (tr : List cc_call) (c : cc_call) :
    Int × List cc_call :=
  (lib.ret tr c, tr ++ [c])

/-- The C string a function of the client library reads at the pointer
`std::string::c_str ()` returns: the characters of the string up to, and not
including, its first NUL character. -/
def c_str (s : String) : String :=
  String.mk (s.data.takeWhile (fun c => c ≠ Char.ofNat 0))

/-- The data member of class `tizcastd` that `tizcastd.cpp` uses. -/
structure tizcastd where
  p_cc_ : Nat
  deriving DecidableEq, Repr

/-- The callback `cc_new_media_status_cback`: its body is empty. -/
def cc_new_media_status_cback (_ap_user_data : Nat) (self : tizcastd) (tr : List cc_call) :
    tizcastd × List cc_call :=
  (self, tr)

/-- The constructor `tizcastd::tizcastd`: `p_cc_` starts as `NULL`, then
`tiz_chromecast_init (&p_cc_, ap_dbname, cc_new_media_status_cback, this)` is
called and its return value is cast to `void`. -/
def tizcastd.tizcastd (lib : chromecast_lib) (this : Nat) (ap_dbname : String)
    (tr : List cc_call) : Cast.tizcastd × List cc_call :=
  let self : Cast.tizcastd := { p_cc_ := NULL }
  let r := lib.call tr (cc_call.tiz_chromecast_init ap_dbname this)
  let self : Cast.tizcastd :=
    match lib.init_out tr ap_dbname with
    | some h => { self with p_cc_ := h }
    | none => self
  (self, r.2)

/-- The command `tizcastd::load_url`. -/
def tizcastd.load_url (lib : chromecast_lib) (self : Cast.tizcastd) (tr : List cc_call)
    (url mime_type title : String) : tiz_cast_error_t × Cast.tizcastd × List cc_call :=
  let outcome := TIZ_CAST_SUCCESS
  let r := lib.call tr
    (cc_call.tiz_chromecast_load_url self.p_cc_ (c_str url) (c_str mime_type) (c_str title))
  let outcome := if 0 ≠ r.1 then TIZ_CAST_URL_LOAD_FAILURE else outcome
  (outcome, self, r.2)

/-- The command `tizcastd::play`. -/
def tizcastd.play (lib : chromecast_lib) (self : Cast.tizcastd) (tr : List cc_call) :
    tiz_cast_error_t × Cast.tizcastd × List cc_call :=
  let outcome := TIZ_CAST_SUCCESS
  let r := lib.call tr (cc_call.tiz_chromecast_play self.p_cc_)
  let outcome := if 0 ≠ r.1 then TIZ_CAST_CC_CMD_FAILURE else outcome
  (outcome, self, r.2)

/-- The command `tizcastd::stop`. -/
def tizcastd.stop (lib : chromecast_lib) (self : Cast.tizcastd) (tr : List cc_call) :
    tiz_cast_error_t × Cast.tizcastd × List cc_call :=
  let outcome := TIZ_CAST_SUCCESS
  let r := lib.call tr (cc_call.tiz_chromecast_stop self.p_cc_)
  let outcome := if 0 ≠ r.1 then TIZ_CAST_CC_CMD_FAILURE else outcome
  (outcome, self, r.2)

/-- The command `tizcastd::pause`. -/
def tizcastd.pause (lib : chromecast_lib) (self : Cast.tizcastd) (tr : List cc_call) :
    tiz_cast_error_t × Cast.tizcastd × List cc_call :=
  let outcome := TIZ_CAST_SUCCESS
  let r := lib.call tr (cc_call.tiz_chromecast_pause self.p_cc_)
  let outcome := if 0 ≠ r.1 then TIZ_CAST_CC_CMD_FAILURE else outcome
  (outcome, self, r.2)

/-- The command `tizcastd::volume_up`. -/
def tizcastd.volume_up (lib : chromecast_lib) (self : Cast.tizcastd) (tr : List cc_call) :
    tiz_cast_error_t × Cast.tizcastd × List cc_call :=
  let outcome := TIZ_CAST_SUCCESS
  let r := lib.call tr (cc_call.tiz_chromecast_volume_up self.p_cc_)
  let outcome := if 0 ≠ r.1 then TIZ_CAST_CC_CMD_FAILURE else outcome
  (outcome, self, r.2)

/-- The command `tizcastd::volume_down`. -/
def tizcastd.volume_down (lib : chromecast_lib) (self : Cast.tizcastd) (tr : List cc_call) :
    tiz_cast_error_t × Cast.tizcastd × List cc_call :=
  let outcome := TIZ_CAST_SUCCESS
  let r := lib.call tr (cc_call.tiz_chromecast_volume_down self.p_cc_)
  let outcome := if 0 ≠ r.1 then TIZ_CAST_CC_CMD_FAILURE else outcome
  (outcome, self, r.2)

/-- The command `tizcastd::mute`. -/
def tizcastd.mute (lib : chromecast_lib) (self : Cast.tizcastd) (tr : List cc_call) :
    tiz_cast_error_t × Cast.tizcastd × List cc_call :=
  let outcome := TIZ_CAST_SUCCESS
  let r := lib.call tr (cc_call.tiz_chromecast_mute self.p_cc_)
  let outcome := if 0 ≠ r.1 then TIZ_CAST_CC_CMD_FAILURE else outcome
  (outcome, self, r.2)

/-- The command `tizcastd::unmute`. -/
def tizcastd.unmute (lib : chromecast_lib) (self : Cast.tizcastd) (tr : List cc_call) :
    tiz_cast_error_t × Cast.tizcastd × List cc_call :=
  let outcome := TIZ_CAST_SUCCESS
  let r := lib.call tr (cc_call.tiz_chromecast_unmute self.p_cc_)
  let outcome := if 0 ≠ r.1 then TIZ_CAST_CC_CMD_FAILURE else outcome
  (outcome, self, r.2)

/-- The destructor `tizcastd::~tizcastd`. -/
def tizcastd.destroy (lib : chromecast_lib) (self : Cast.tizcastd) (tr : List cc_call) :
    Cast.tizcastd × List cc_call :=
  let r := lib.call tr (cc_call.tiz_chromecast_destroy self.p_cc_)
  ({ self with p_cc_ := NULL }, r.2)

/-- A client library used to evaluate the definitions: every call returns 0
and `tiz_chromecast_init` writes the handle 1. -/
def demo_lib : chromecast_lib :=
  { ret := fun _ _ => 0
    init_out := fun _ _ => some 1 }

/-- The five-character string `ab`, NUL, `cd`. -/
def nul_url : String := String.mk [Char.ofNat 97, Char.ofNat 98, Char.ofNat 0, Char.ofNat 99, Char.ofNat 100]

/-- The contract of an argument-less command whose library call returned
`rc`: success exactly for 0, `TIZ_CAST_CC_CMD_FAILURE` exactly for a
non-zero value, and never `TIZ_CAST_URL_LOAD_FAILURE`. -/
def cmd_outcome_ok (outcome : tiz_cast_error_t) (rc : Int) : Prop :=
  (outcome = TIZ_CAST_SUCCESS ↔ rc = 0) ∧
  (outcome = TIZ_CAST_CC_CMD_FAILURE ↔ rc ≠ 0) ∧
  outcome ≠ TIZ_CAST_URL_LOAD_FAILURE

end Cast

namespace Mp4Dmux

/-! ## Part 2: the MP4 demuxer source processor

`mp4dmuxsrcprc_decls.h` declares the processor object; the functions that act on
it (the processor methods, the URL transport and the port) are not among the
embedded files, so they are written here after sections 3, 4 and 6 of the
specification.  Every such definition says so in its comment. -/

/-- Modelled from the spec: one byte of the stream a Transport delivers
(section 4.1), labelled with the locator it was fetched from so that the origin
of the bytes of a buffer can be told. -/
structure stream_byte where
  src : String
  val : Nat
  deriving DecidableEq, Repr

/-- Modelled from the spec: the Buffer Header of section 3
(`OMX_BUFFERHEADERTYPE`, declared in `OMX_Core.h`): capacity, fill (the fill
length is `data.length`) and end-of-stream flag.  `id` names the header; who
owns it is told by the collection that holds it.  Offset and timestamp play no
part in the properties below and are left out. -/
structure buffer_header where
  id : Nat
  capacity : Nat
  data : List stream_byte
  eos : Bool
  deriving DecidableEq, Repr

/-- A header as the port's empty queue holds it: no data, no flag. -/
def buffer_header.cleared (b : buffer_header) : buffer_header :=
  { b with data := [], eos := false }

/-! ### Cache sizing (section 4.1, "Adaptive cache sizing") -/

/-- The largest value of a C `int` (32 bits). -/
def INT_MAX : Int := 2147483647

/-- The smallest value of a C `int` (32 bits). -/
def INT_MIN : Int := -2147483648

/-- The value a C `int` member (32 bits, two's complement) holds after the
integer `x` is stored in it: `x` itself when it fits, else `x` wrapped. -/
def to_int (x : Int) : Int := (x + 2147483648) % 4294967296 - 2147483648

/-- Modelled from the spec: the configuration of the adaptive cache sizing of
section 4.1, which the missing transport code would hold: the clamp bounds in
bytes, the fixed look-ahead in seconds and the conservative default bitrate in
bits per second. -/
structure cache_config where
  min_cache : Int
  max_cache : Int
  look_ahead : Int
  default_bitrate : Int
  deriving DecidableEq, Repr

/-- Modelled from the spec: "bitrate estimate (bits/sec) × a fixed look-ahead
duration, converted to bytes" (section 4.1), before clamping.  The product is
taken over the integers (the spec names no width) and the division by 8 rounds
towards zero, as C's division does. -/
def unclamped_target (look_ahead bitrate : Int) : Int :=
  Int.tdiv (bitrate * look_ahead) 8

/-- Modelled from the spec: the cache-size target of section 4.1, the unclamped
target "clamped to [min_cache, max_cache]". -/
def cache_target (c : cache_config) (bitrate : Int) : Int :=
  max c.min_cache (min c.max_cache (unclamped_target c.look_ahead bitrate))

/-- A configuration is well formed when its bounds are ordered, not negative
and values of a C `int`. -/
def cache_config.wf (c : cache_config) : Prop :=
  0 ≤ c.min_cache ∧ c.min_cache ≤ c.max_cache ∧ c.max_cache ≤ INT_MAX

instance (c : cache_config) : Decidable c.wf := by
  unfold cache_config.wf; infer_instance

/-! ### Port (sections 3, 4.4 and 6) -/

/-- Modelled from the spec: the failures of the port operations of section 4.4.
`NotLent` answers an attempt to hand over a header the processor does not hold
(the header's ownership, section 3). -/
inductive port_error
  | Exhausted
  | PortDisabled
  | NotLent
  deriving DecidableEq, Repr

/-- Modelled from the spec: the Port of sections 3 and 4.4 (the port class is
not among the embedded files).  `pool` names the headers the Host allocated;
`empty` is the FIFO queue of headers the port holds; `lent` names the headers
lent to the processor for filling; `downstream` holds the headers delivered and
not yet lent to the port again.  `acquired`, `delivered` and `returned` record
every successful acquisition, delivery and unfilled return, oldest first.
Index, direction, tunnelling and format descriptor play no part in the
properties below and are left out. -/
structure port where
  enabled : Bool
  pool : List Nat
  empty : List buffer_header
  lent : List Nat
  downstream : List buffer_header
  acquired : List Nat
  delivered : List buffer_header
  returned : List Nat
  deriving DecidableEq, Repr

/-- Modelled from the spec: a port whose pool the Host has just allocated, one
header per capacity, all of them in the empty queue (section 3, "allocated by
the Component Host, lent to the Port"). -/
def port.allocate (caps : List Nat) : port :=
  { enabled := true
    pool := List.range caps.length
    empty := caps.enum.map (fun ic => { id := ic.1, capacity := ic.2, data := [], eos := false })
    lent := []
    downstream := []
    acquired := []
    delivered := []
    returned := [] }

/-- Modelled from the spec: `acquire_empty_buffer` / `AcquireEmptyBuffer`
(sections 4.4 and 6): the head of the empty queue is lent to the caller;
`Exhausted` when the queue is empty; a disabled port rejects acquisitions. -/
def port.acquire_empty_buffer (p : port) : Except port_error (buffer_header × port) :=
  if p.enabled = false then .error port_error.PortDisabled
  else
    match p.empty with
    | [] => .error port_error.Exhausted
    | h :: rest =>
      .ok (h, { p with empty := rest, lent := p.lent ++ [h.id], acquired := p.acquired ++ [h.id] })

/-- Modelled from the spec: `deliver_filled_buffer` / `SubmitFilledBuffer`
(sections 4.4 and 6): a header lent to the processor is handed downstream;
`PortDisabled` once the port is disabled. -/
def port.deliver_filled_buffer (p : port) (b : buffer_header) : Except port_error port :=
  if p.enabled = false then .error port_error.PortDisabled
  else if b.id ∈ p.lent then
    .ok { p with lent := p.lent.erase b.id, downstream := p.downstream ++ [b],
                 delivered := p.delivered ++ [b] }
  else .error port_error.NotLent

/-- Modelled from the spec: `ReturnEmptyBuffer` (section 6): a header lent to
the processor goes back, unfilled, to the end of the port's empty queue. -/
def port.return_empty_buffer (p : port) (b : buffer_header) : Except port_error port :=
  if b.id ∈ p.lent then
    .ok { p with lent := p.lent.erase b.id, empty := p.empty ++ [b.cleared],
                 returned := p.returned ++ [b.id] }
  else .error port_error.NotLent

/-- Modelled from the spec: the end of a header's trip (section 3, "eventually
reclaimed by the Host"): the oldest delivered header with this name leaves the
downstream side and is lent to the port again, cleared. -/
def port.relend (p : port) (id : Nat) : port :=
  match p.downstream.find? (fun b => b.id = id) with
  | some b => { p with downstream := p.downstream.erase b, empty := p.empty ++ [b.cleared] }
  | none => p

/-- Modelled from the spec: `enable` (section 4.4), immediate. -/
def port.enable (p : port) : port := { p with enabled := true }

/-- Modelled from the spec: the first phase of `disable` (section 4.4): the
port is marked disabled at once. -/
def port.disable (p : port) : port := { p with enabled := false }

/-- Modelled from the spec: the buffers in flight (section 8): the headers that
are out of the port's empty queue, lent to the processor or delivered and not
yet back. -/
def port.in_flight (p : port) : Nat := p.lent.length + p.downstream.length

/-- Modelled from the spec: the operations on a port: the three of the buffer
exchange interface of section 6, the Host lending a delivered header again
(section 3), and enabling and disabling (section 4.4). -/
inductive port_op
  | AcquireEmptyBuffer
  | SubmitFilledBuffer (b : buffer_header)
  | ReturnEmptyBuffer (b : buffer_header)
  | Relend (id : Nat)
  | Enable
  | Disable
  deriving DecidableEq, Repr

/-- Modelled from the spec: one operation on a port; a failed operation
(`Exhausted`, `PortDisabled`, `NotLent`) leaves the port as it was. -/
def port.apply (p : port) : port_op → port
  | port_op.AcquireEmptyBuffer =>
    match p.acquire_empty_buffer with
    | .ok r => r.2
    | .error _ => p
  | port_op.SubmitFilledBuffer b =>
    match p.deliver_filled_buffer b with
    | .ok q => q
    | .error _ => p
  | port_op.ReturnEmptyBuffer b =>
    match p.return_empty_buffer b with
    | .ok q => q
    | .error _ => p
  | port_op.Relend id => p.relend id
  | port_op.Enable => p.enable
  | port_op.Disable => p.disable

/-- A finite sequence of operations on a port, first to last. -/
def port.run (p : port) (ops : List port_op) : port := ops.foldl port.apply p

end Mp4Dmux

namespace Mp4Dmux

/-- Accounting of a port: the headers of the empty queue, those lent to the
processor and those downstream are together the pool, each header once; and,
header by header, every acquisition is matched by one delivery, one unfilled
return, or the header still being lent. -/
def port.inv (p : port) : Prop :=
  (p.empty.map buffer_header.id ++ p.lent ++ p.downstream.map buffer_header.id).Perm p.pool ∧
  p.pool.Nodup ∧
  ∀ i : Nat, (p.delivered.map buffer_header.id).count i + p.returned.count i + p.lent.count i
    = p.acquired.count i

end Mp4Dmux

namespace Mp4Dmux

/-! ### Transport (sections 3 and 4.1) -/

/-- Modelled from the spec: the transport failures of section 7. -/
inductive transport_error
  | InvalidLocator
  | ConnectionError
  | TransportError
  deriving DecidableEq, Repr

/-- Modelled from the spec: the Transport session of section 3
(`tiz_urltrans_t`, whose definition is not among the embedded files): target
locator, byte cursor, cache size target, the bytes fetched ahead and not yet
read, the end-of-stream flag (the locator has no byte beyond those cached), the
pause flag of section 4.1 and the last error. -/
structure transport_session where
  locator : String
  cursor : Nat
  cache_target : Int
  cached : List stream_byte
  eos : Bool
  paused : Bool
  last_error : Option transport_error
  deriving DecidableEq, Repr

/-- Modelled from the spec: `open(locator, cache_size_hint)` of section 4.1.
Whether the locator is valid and the connection succeeds is decided outside
the processor; `failure` is that decision.  A new session has fetched nothing. -/
def transport_open (locator : Option String) (cache_size_hint : Int)
    (failure : Option transport_error) : Except transport_error transport_session :=
  match locator, failure with
  | none, _ => .error transport_error.InvalidLocator
  | some _, some e => .error e
  | some uri, none =>
    .ok { locator := uri, cursor := 0, cache_target := cache_size_hint, cached := [],
          eos := false, paused := false, last_error := none }

/-- Modelled from the spec: `read(max_len)` of section 4.1: the bytes currently
cached, at most `max_len` of them, and whether the stream has ended, which is so
when the locator has no further byte and the cache is drained by this read. -/
def transport_session.read (t : transport_session) (max_len : Nat) :
    List stream_byte × Bool × transport_session :=
  let bytes := t.cached.take max_len
  let rest := t.cached.drop max_len
  (bytes, t.eos && rest.isEmpty, { t with cached := rest, cursor := t.cursor + bytes.length })

/-- Modelled from the spec: the background prefetch of sections 4.1 and 5: the
session fetches further bytes of its locator, and learns whether the locator is
exhausted.  A paused, ended or failed session fetches nothing. -/
def transport_session.prefetch (t : transport_session) (bytes : List Nat) (eos : Bool) :
    transport_session :=
  if t.paused = true ∨ t.eos = true ∨ t.last_error.isSome = true then t
  else
    { t with cached := t.cached ++ bytes.map (fun v => { src := t.locator, val := v }),
             eos := eos }

/-! ### Source processor (sections 3, 4.2, 4.3 and 6) -/

/-- The object `struct mp4dmuxsrc_prc` of `mp4dmuxsrcprc_decls.h`, member by
member (the base object `_` apart).  Pointers are options: `p_outhdr_` is the
header being filled, `p_uri_` the configured locator, `p_trans_` the transport
session.  `audio_coding_type_` (`OMX_S32`), `bitrate_` and `cache_bytes_`
(`int`) are 32-bit members: every definition that assigns one of them stores
`to_int` of the value, so they always hold a value of a C `int`. -/
structure mp4dmuxsrc_prc where
  p_outhdr_ : Option buffer_header
  p_uri_ : Option String
  p_trans_ : Option transport_session
  eos_ : Bool
  port_disabled_ : Bool
  uri_changed_ : Bool
  auto_detect_on_ : Bool
  audio_coding_type_ : Int
  bitrate_ : Int
  cache_bytes_ : Int
  deriving DecidableEq, Repr

/-- Modelled from the spec: the value of `audio_coding_type_` while the coding
type is "not yet resolved" (section 4.3 step 2); the OpenMAX constants are not
among the embedded files. -/
def coding_unresolved : Int := 0

/-- Modelled from the spec: the lifecycle states of section 4.2. -/
inductive lifecycle
  | Loaded
  | Idle
  | Executing
  | Pause
  | Error
  deriving DecidableEq, Repr

/-- Modelled from the spec: what the missing processor code is configured
with: the cache sizing configuration, the `cache_bytes_override` option of
section 6 ("bypasses adaptive sizing"; `none` when not configured), the
capacities of the headers the Host allocates for the output port, the
demultiplexing step (`unit_len raw` is the length of the first complete
elementary-stream unit at the head of `raw`, 0 when there is none yet; section
4.3 step 4 leaves the container format open) and the first-byte classifier of
step 2 (coding type and bitrate estimate, or nothing for an unsupported
format). -/
structure demux_model where
  cache : cache_config
  cache_bytes_override : Option Int
  buffer_caps : List Nat
  unit_len : List stream_byte → Nat
  sniff : List stream_byte → Option (Int × Int)

/-- Modelled from the spec: the source processor of section 3 with what it
owns: the declared object, the lifecycle state, the output port, the demux
state kept across cycles (`raw`: bytes read and not yet formed into a unit;
`pending_unit`: the part of the current unit not yet copied out).  `session_no`
counts the transport sessions opened so far and `emitted` records every buffer
handed to the port, oldest first, with the session it was emitted in. -/
structure source where
  prc : mp4dmuxsrc_prc
  state : lifecycle
  port : port
  raw : List stream_byte
  pending_unit : List stream_byte
  session_no : Nat
  emitted : List (Nat × buffer_header)
  deriving DecidableEq, Repr

/-- Modelled from the spec: whether a complete elementary-stream unit stands at
the head of the bytes read so far (section 4.3 step 4). -/
def has_unit (m : demux_model) (raw : List stream_byte) : Bool :=
  decide (0 < m.unit_len raw) && decide (m.unit_len raw ≤ raw.length)

/-- Modelled from the spec: the cache size the processor stores in
`cache_bytes_` for the bitrate estimate it holds: the `cache_bytes_override` of
section 6 when one is configured, which bypasses the adaptive sizing, bounds
included; else the adaptive target of section 4.1. -/
def cache_size (m : demux_model) (bitrate : Int) : Int :=
  match m.cache_bytes_override with
  | some v => to_int v
  | none => to_int (cache_target m.cache bitrate)

/-- Modelled from the spec: the processor as constructed: state `Loaded`, no
resource allocated, the bitrate estimate seeded by the `bitrate_hint` option of
section 6 or else the conservative default, and the cache size that goes with
it (the override of section 6, else the target of section 4.1). -/
def source.init (m : demux_model) (bitrate_hint : Option Int) : source :=
  { prc :=
      { p_outhdr_ := none, p_uri_ := none, p_trans_ := none, eos_ := false,
        port_disabled_ := false, uri_changed_ := false, auto_detect_on_ := true,
        audio_coding_type_ := coding_unresolved,
        bitrate_ := to_int (bitrate_hint.getD m.cache.default_bitrate),
        cache_bytes_ := cache_size m (to_int (bitrate_hint.getD m.cache.default_bitrate)) }
    state := lifecycle.Loaded
    port := port.allocate []
    raw := []
    pending_unit := []
    session_no := 0
    emitted := [] }

/-- Modelled from the spec: recomputing the cache size from a bitrate estimate
(section 4.3 step 2, section 4.1): the estimate is stored in `bitrate_`,
`cache_bytes_` is recomputed from the stored estimate (or stays the override
of section 6) and handed to the transport session as its new target; bytes
already buffered are kept. -/
def source.update_cache_size (m : demux_model) (s : source) (bitrate : Int) : source :=
  { s with prc :=
      { s.prc with
        bitrate_ := to_int bitrate
        cache_bytes_ := cache_size m (to_int bitrate)
        p_trans_ := s.prc.p_trans_.map
          (fun t => { t with cache_target := cache_size m (to_int bitrate) }) } }

/-- Modelled from the spec: giving the held header back to the port unfilled
(section 4.3 step 7, section 5 "Cancellation"). -/
def source.release_buffer (s : source) : source :=
  match s.prc.p_outhdr_ with
  | none => s
  | some h =>
    match s.port.return_empty_buffer h with
    | .ok p => { s with port := p, prc := { s.prc with p_outhdr_ := none } }
    | .error _ => { s with prc := { s.prc with p_outhdr_ := none } }

/-- Modelled from the spec: opening a transport session for the configured
locator with the current cache size as hint (section 4.2); a failure carries
the processor into the error state (section 7). -/
def source.open_transport (s : source) (failure : Option transport_error) : source :=
  match transport_open s.prc.p_uri_ s.prc.cache_bytes_ failure with
  | .ok t => { s with prc := { s.prc with p_trans_ := some t }, session_no := s.session_no + 1 }
  | .error _ =>
    { s with prc := { s.prc with p_trans_ := none }, state := lifecycle.Error,
             session_no := s.session_no + 1 }

/-- Modelled from the spec: section 4.3 step 1: "close the current transport
session, clear `eos_`, clear cached demux state, open a new session for the new
locator, clear the flag". -/
def source.handle_uri_change (s : source) (failure : Option transport_error) : source :=
  if s.prc.uri_changed_ = true then
    let s1 : source :=
      { s with prc := { s.prc with p_trans_ := none, eos_ := false }, raw := [],
               pending_unit := [] }
    let s2 := s1.open_transport failure
    { s2 with prc := { s2.prc with uri_changed_ := false } }
  else s

/-- Modelled from the spec: section 4.3 step 2: with auto-detect on and the
coding type unresolved, the first bytes of the stream are classified once
there are some; success resolves coding type and bitrate and recomputes the
cache size; failure is `UnsupportedFormat` (`none`). -/
def source.auto_detect (m : demux_model) (s : source) : Option source :=
  match s.prc.p_trans_ with
  | none => some s
  | some t =>
    if s.prc.auto_detect_on_ = true ∧ s.prc.audio_coding_type_ = coding_unresolved ∧
        t.cached ≠ [] then
      match m.sniff t.cached with
      | none => none
      | some cb =>
        some (({ s with prc := { s.prc with audio_coding_type_ := to_int cb.1 } }).update_cache_size
          m cb.2)
    else some s

/-- Modelled from the spec: section 4.3 step 4: when no unit is being copied
out and a complete unit stands at the head of the bytes read, it becomes the
pending unit; an incomplete unit stays with the bytes read. -/
def source.demux (m : demux_model) (s : source) : source :=
  if s.pending_unit = [] ∧ has_unit m s.raw = true then
    { s with pending_unit := s.raw.take (m.unit_len s.raw),
             raw := s.raw.drop (m.unit_len s.raw) }
  else s

/-- Modelled from the spec: handing the filled header to the port
(`deliver_filled_buffer`); delivering a header flagged end-of-stream sets
`eos_`.  When the port refuses, the header goes back unfilled and the cycle
ends (section 4.3 step 7). -/
def source.emit (s : source) (b : buffer_header) : source :=
  match s.port.deliver_filled_buffer b with
  | .ok p =>
    { s with port := p,
             prc := { s.prc with p_outhdr_ := none, eos_ := s.prc.eos_ || b.eos },
             emitted := s.emitted ++ [(s.session_no, b)] }
  | .error _ => s.release_buffer

/-- Modelled from the spec: section 4.3 steps 5 and 6 for the held header `h`,
`eos` telling whether the transport reported end of stream: copy what fits of
the pending unit into the header, the remainder staying for the next cycle; at
end of stream with no unit left, flag the header and emit it; otherwise emit
it when it got data. -/
def source.copy_and_emit (m : demux_model) (eos : Bool) (h : buffer_header) (s : source) :
    source :=
  let room := h.capacity - h.data.length
  let chunk := s.pending_unit.take room
  let s5 : source := { s with pending_unit := s.pending_unit.drop room }
  let filled : buffer_header := { h with data := h.data ++ chunk }
  if eos = true ∧ s5.pending_unit = [] ∧ has_unit m s5.raw = false then
    s5.emit { filled with eos := true }
  else if chunk ≠ [] then s5.emit filled
  else s5

/-- Modelled from the spec: section 4.3 steps 3 to 6 for the held header and
the open session: read without blocking; yield on zero bytes and no end of
stream; demultiplex; then copy and emit. -/
def source.pull_and_fill (m : demux_model) (max_len : Nat) (s : source) : source :=
  match s.prc.p_trans_, s.prc.p_outhdr_ with
  | some t, some h =>
    let r := t.read max_len
    if r.1 = [] ∧ r.2.1 = false then s
    else
      source.copy_and_emit m r.2.1 h
        (source.demux m
          { s with prc := { s.prc with p_trans_ := some r.2.2 }, raw := s.raw ++ r.1 })
  | _, _ => s

/-- Modelled from the spec: the header the cycle fills: the one already held,
else one acquired from the port; `none` when the port has none to lend. -/
def source.take_buffer (s : source) : Option source :=
  match s.prc.p_outhdr_ with
  | some _ => some s
  | none =>
    match s.port.acquire_empty_buffer with
    | .ok r => some { s with port := r.2, prc := { s.prc with p_outhdr_ := some r.1 } }
    | .error _ => none

/-- Modelled from the spec: one buffer fill cycle of section 4.3.  It runs in
`Executing` with the output port not disabled and an empty header available;
after end of stream was reported it runs only for a pending locator change. -/
def source.fill_cycle (m : demux_model) (max_len : Nat) (failure : Option transport_error)
    (s : source) : source :=
  if s.state ≠ lifecycle.Executing ∨ s.prc.port_disabled_ = true then s
  else if s.prc.eos_ = true ∧ s.prc.uri_changed_ = false then s
  else
    match s.take_buffer with
    | none => s
    | some s0 =>
      let s1 := s0.handle_uri_change failure
      if s1.state ≠ lifecycle.Executing then s1
      else
        match s1.auto_detect m with
        | none => { s1 with state := lifecycle.Error }
        | some s2 => s2.pull_and_fill m max_len

/-- Modelled from the spec: the `SetState` command of sections 4.2 and 6.
`Loaded → Idle` allocates the port; `Idle → Executing` opens the transport;
`Executing ⇄ Pause` pauses and resumes it; back to `Idle` the transport is
closed and the held buffer flushed; `Idle → Loaded` frees everything.  Any
other request is refused. -/
def source.set_state (m : demux_model) (s : source) (target : lifecycle)
    (failure : Option transport_error) : source :=
  match s.state, target with
  | lifecycle.Loaded, lifecycle.Idle =>
    { s with state := lifecycle.Idle,
             port := { port.allocate m.buffer_caps with enabled := !s.prc.port_disabled_ },
             prc := { s.prc with p_outhdr_ := none } }
  | lifecycle.Idle, lifecycle.Executing =>
    source.open_transport { s with state := lifecycle.Executing } failure
  | lifecycle.Executing, lifecycle.Pause =>
    { s with state := lifecycle.Pause,
             prc := { s.prc with p_trans_ := s.prc.p_trans_.map (fun t => { t with paused := true }) } }
  | lifecycle.Pause, lifecycle.Executing =>
    { s with state := lifecycle.Executing,
             prc := { s.prc with p_trans_ := s.prc.p_trans_.map (fun t => { t with paused := false }) } }
  | lifecycle.Executing, lifecycle.Idle =>
    source.release_buffer { s with state := lifecycle.Idle, prc := { s.prc with p_trans_ := none } }
  | lifecycle.Pause, lifecycle.Idle =>
    source.release_buffer { s with state := lifecycle.Idle, prc := { s.prc with p_trans_ := none } }
  | lifecycle.Idle, lifecycle.Loaded =>
    { s with state := lifecycle.Loaded,
             port := { port.allocate [] with enabled := !s.prc.port_disabled_ },
             prc := { s.prc with p_outhdr_ := none } }
  | _, _ => s

/-- Modelled from the spec: what happens to a source processor: the commands
of the Component Host (section 6), the reset out of the error state (section
4.2), what the transport's background activity reports (sections 4.1 and 5), a
bitrate found in the container metadata (section 4.1), the Host lending a
delivered header again (section 3), and a buffer fill cycle (section 4.3) with
the read size it uses and the outcome of an open it may attempt. -/
inductive event
  | SetState (target : lifecycle) (failure : Option transport_error)
  | Reset
  | EnablePort
  | DisablePort
  | SetLocator (uri : String) (mime_hint : Option Int)
  | Flush
  | TransportData (bytes : List Nat) (eos : Bool)
  | TransportFailure
  | BitrateEstimate (bitrate : Int)
  | Relend (id : Nat)
  | FillCycle (max_len : Nat) (failure : Option transport_error)
  deriving DecidableEq, Repr

/-- Modelled from the spec: the processor's reaction to one event, events being
handled one at a time in arrival order (section 5). -/
def source.step (m : demux_model) (s : source) : event → source
  | event.SetState target failure => s.set_state m target failure
  | event.Reset =>
    if s.state = lifecycle.Error then
      source.release_buffer { s with state := lifecycle.Idle, prc := { s.prc with p_trans_ := none } }
    else s
  | event.EnablePort =>
    { s with port := s.port.enable, prc := { s.prc with port_disabled_ := false } }
  | event.DisablePort =>
    let s1 := s.release_buffer
    { s1 with port := s1.port.disable, prc := { s1.prc with port_disabled_ := true } }
  | event.SetLocator uri mime_hint =>
    { s with prc :=
        { s.prc with p_uri_ := some uri, uri_changed_ := true,
                     auto_detect_on_ := mime_hint.isNone,
                     audio_coding_type_ := to_int (mime_hint.getD coding_unresolved) } }
  | event.Flush => s.release_buffer
  | event.TransportData bytes eos =>
    { s with prc := { s.prc with p_trans_ := s.prc.p_trans_.map (fun t => t.prefetch bytes eos) } }
  | event.TransportFailure =>
    match s.prc.p_trans_ with
    | none => s
    | some t =>
      { s with state := lifecycle.Error,
               prc := { s.prc with
                 p_trans_ := some { t with last_error := some transport_error.TransportError } } }
  | event.BitrateEstimate bitrate => s.update_cache_size m bitrate
  | event.Relend id => { s with port := s.port.relend id }
  | event.FillCycle max_len failure => s.fill_cycle m max_len failure

/-- The processor after a finite sequence of events, first to last. -/
def source.run (m : demux_model) (s : source) (evs : List event) : source :=
  evs.foldl (source.step m) s

/-- The commands after which a processor that reported end of stream pulls
cycles again: a state change (stop), the reset, and a locator change. -/
def event.resumes : event → Bool
  | event.SetState _ _ => true
  | event.Reset => true
  | event.SetLocator _ _ => true
  | event.Flush => true
  | _ => false

end Mp4Dmux

namespace Mp4Dmux

/-- What holds of a source processor after every event: the port's accounting;
the processor holds exactly the header the port lent it; headers in the empty
queue and the held header carry no data; cached bytes come from the session's
locator; unless a locator change is pending, the session and the demux state
belong to the configured locator; every emitted buffer holds bytes of one
locator; emitted buffers carry session numbers in order, a buffer flagged
end-of-stream being followed only by buffers of later sessions; the cache size
is the one that goes with the stored bitrate estimate, the session's target
equals it, and the stored bitrate estimate is a value of a C `int`. -/
structure source.inv (m : demux_model) (s : source) : Prop where
  port_inv : s.port.inv
  lent_eq : s.port.lent = (s.prc.p_outhdr_.map buffer_header.id).toList
  empty_clear : ∀ b ∈ s.port.empty, b.data = [] ∧ b.eos = false
  held_clear : ∀ h, s.prc.p_outhdr_ = some h → h.data = [] ∧ h.eos = false
  cached_src : ∀ t, s.prc.p_trans_ = some t → ∀ b ∈ t.cached, b.src = t.locator
  trans_uri : s.prc.uri_changed_ = false →
    ∀ t, s.prc.p_trans_ = some t → s.prc.p_uri_ = some t.locator
  demux_src : s.prc.uri_changed_ = false →
    ∀ b ∈ s.raw ++ s.pending_unit, s.prc.p_uri_ = some b.src
  emitted_src : ∀ e ∈ s.emitted, ∀ b1 ∈ e.2.data, ∀ b2 ∈ e.2.data, b1.src = b2.src
  emitted_le : ∀ e ∈ s.emitted, e.1 ≤ s.session_no
  eos_old : s.prc.eos_ = false → ∀ e ∈ s.emitted, e.2.eos = true → e.1 < s.session_no
  eos_last : s.emitted.Pairwise (fun a b => a.1 ≤ b.1 ∧ (a.2.eos = true → a.1 < b.1))
  cache_eq : s.prc.cache_bytes_ = cache_size m s.prc.bitrate_
  bitrate_int : INT_MIN ≤ s.prc.bitrate_ ∧ s.prc.bitrate_ ≤ INT_MAX
  trans_cache : ∀ t, s.prc.p_trans_ = some t → t.cache_target = s.prc.cache_bytes_

/-- A step that emitted nothing and did not newly set `eos_`. -/
def source.quiet (s s' : source) : Prop :=
  s'.emitted = s.emitted ∧ (s'.prc.eos_ = true → s.prc.eos_ = true)

/-- A step that emitted exactly the buffer `b`: it is recorded with the
current session number, no locator change is pending afterwards, `eos_` tells
whether `b` is flagged end-of-stream, and a flagged `b` leaves a transport
session that reached the end of its stream with no byte cached, no pending
unit and no complete unit among the bytes read. -/
def source.emits (m : demux_model) (s s' : source) (b : buffer_header) : Prop :=
  s'.emitted = s.emitted ++ [(s'.session_no, b)] ∧ s'.prc.eos_ = b.eos ∧
    s'.prc.uri_changed_ = false ∧
    (b.eos = true → ∃ t, s'.prc.p_trans_ = some t ∧ t.eos = true ∧ t.cached = [] ∧
      s'.pending_unit = [] ∧ has_unit m s'.raw = false)

end Mp4Dmux

namespace Mp4Dmux

/-- The processor reached from its initial state by a sequence of events. -/
def source.after (m : demux_model) (bitrate_hint : Option Int) (evs : List event) : source :=
  (source.init m bitrate_hint).run m evs

/-- A concrete configuration used to evaluate the definitions: cache between
4096 bytes and 1000000 bytes, 2 s look-ahead, 128 kbps default bitrate, four
headers of 3 bytes, units of two bytes, and a classifier that always answers
coding type 1 at 128 kbps. -/
def demo_model : demux_model :=
  { cache := { min_cache := 4096, max_cache := 1000000, look_ahead := 2,
               default_bitrate := 128000 }
    cache_bytes_override := none
    buffer_caps := [3, 3, 3, 3]
    unit_len := fun raw => if 2 ≤ raw.length then 2 else 0
    sniff := fun _ => some (1, 128000) }

/-- The concrete configuration with a `cache_bytes_override` of 2000000 bytes,
twice its ceiling. -/
def demo_override_model : demux_model :=
  { demo_model with cache_bytes_override := some 2000000 }

/-- A concrete run: locator `a` is played to its end (six bytes, three units),
then the locator is changed to `b`, which is played to its end (one unit). -/
def demo_events : List event :=
  [ event.SetState lifecycle.Idle none,
    event.SetLocator "a" none,
    event.SetState lifecycle.Executing none,
    event.FillCycle 10 none,
    event.TransportData [1, 2, 3, 4, 5] false,
    event.FillCycle 10 none,
    event.TransportData [6] true,
    event.FillCycle 10 none,
    event.FillCycle 10 none,
    event.FillCycle 10 none,
    event.SetLocator "b" none,
    event.FillCycle 10 none,
    event.TransportData [7, 8] true,
    event.FillCycle 10 none ]

/-- What the record of emitted buffers shows of each buffer: session number,
header, end-of-stream flag and the bytes with their locators. -/
def source.emitted_view (s : source) : List (Nat × Nat × Bool × List (String × Nat)) :=
  s.emitted.map (fun e => (e.1, e.2.id, e.2.eos, e.2.data.map (fun b => (b.src, b.val))))

end Mp4Dmux
namespace Cast

open tiz_cast_error_t

/-- C1: for every url, mime_type and title, `load_url` answers `TIZ_CAST_SUCCESS`
exactly when `tiz_chromecast_load_url` returned 0, answers
`TIZ_CAST_URL_LOAD_FAILURE` exactly when it returned a non-zero value (positive
or negative), and answers no other code. -/
theorem load_url_outcome (lib : chromecast_lib) (self : tizcastd) (tr : List cc_call)
    (url mime_type title : String) :
    ((tizcastd.load_url lib self tr url mime_type title).1 = TIZ_CAST_SUCCESS ↔
        lib.ret tr (cc_call.tiz_chromecast_load_url self.p_cc_
          (c_str url) (c_str mime_type) (c_str title)) = 0) ∧
    ((tizcastd.load_url lib self tr url mime_type title).1 = TIZ_CAST_URL_LOAD_FAILURE ↔
        lib.ret tr (cc_call.tiz_chromecast_load_url self.p_cc_
          (c_str url) (c_str mime_type) (c_str title)) ≠ 0) ∧
    (tizcastd.load_url lib self tr url mime_type title).1 ≠ TIZ_CAST_CC_CMD_FAILURE := by
  simp only [tizcastd.load_url, chromecast_lib.call]
  by_cases h : lib.ret tr (cc_call.tiz_chromecast_load_url self.p_cc_
      (c_str url) (c_str mime_type) (c_str title)) = 0
  · simp [h]
  · have h' : (0 : Int) ≠ lib.ret tr (cc_call.tiz_chromecast_load_url self.p_cc_
        (c_str url) (c_str mime_type) (c_str title)) := fun e => h e.symm
    simp [h, h']

theorem cmd_outcome_ok_ite (rc : Int) :
    cmd_outcome_ok (if 0 ≠ rc then TIZ_CAST_CC_CMD_FAILURE else TIZ_CAST_SUCCESS) rc := by
  unfold cmd_outcome_ok
  by_cases h : rc = 0
  · simp [h]
  · have h' : (0 : Int) ≠ rc := fun e => h e.symm
    simp [h, h']

/-- C2: each of play, stop, pause, volume_up, volume_down, mute and unmute
answers `TIZ_CAST_SUCCESS` exactly when its namesake library call returned 0,
answers `TIZ_CAST_CC_CMD_FAILURE` exactly when that call returned a non-zero
value, and never answers `TIZ_CAST_URL_LOAD_FAILURE`. -/
theorem argless_commands_outcome (lib : chromecast_lib) (self : tizcastd) (tr : List cc_call) :
    cmd_outcome_ok (tizcastd.play lib self tr).1
      (lib.ret tr (cc_call.tiz_chromecast_play self.p_cc_)) ∧
    cmd_outcome_ok (tizcastd.stop lib self tr).1
      (lib.ret tr (cc_call.tiz_chromecast_stop self.p_cc_)) ∧
    cmd_outcome_ok (tizcastd.pause lib self tr).1
      (lib.ret tr (cc_call.tiz_chromecast_pause self.p_cc_)) ∧
    cmd_outcome_ok (tizcastd.volume_up lib self tr).1
      (lib.ret tr (cc_call.tiz_chromecast_volume_up self.p_cc_)) ∧
    cmd_outcome_ok (tizcastd.volume_down lib self tr).1
      (lib.ret tr (cc_call.tiz_chromecast_volume_down self.p_cc_)) ∧
    cmd_outcome_ok (tizcastd.mute lib self tr).1
      (lib.ret tr (cc_call.tiz_chromecast_mute self.p_cc_)) ∧
    cmd_outcome_ok (tizcastd.unmute lib self tr).1
      (lib.ret tr (cc_call.tiz_chromecast_unmute self.p_cc_)) := by
  refine ⟨?_, ?_, ?_, ?_, ?_, ?_, ?_⟩ <;> exact cmd_outcome_ok_ite _

theorem c_str_of_no_nul (s : String) (h : Char.ofNat 0 ∉ s.data) : c_str s = s := by
  unfold c_str
  have : s.data.takeWhile (fun c => c ≠ Char.ofNat 0) = s.data := by
    rw [List.takeWhile_eq_self_iff]
    intro c hc
    have : c ≠ Char.ofNat 0 := fun e => h (e ▸ hc)
    simpa using this
  rw [this]

theorem c_str_no_nul (s : String) : Char.ofNat 0 ∉ (c_str s).data := by
  unfold c_str
  intro h
  have := List.mem_takeWhile_imp h
  simp at this

/-- C3, as the code has it: every daemon command leaves `p_cc_` as it was and
extends the trace of library calls by exactly one call, its namesake operation
on `p_cc_`, whatever the library returns (a failing call is not followed by a
second one).  For `load_url` the three strings of that call are, in order, the
C strings of the caller's url, mime_type and title: each argument up to its
first NUL character, which is the argument itself when it holds no NUL. -/
theorem commands_forward_once (lib : chromecast_lib) (self : tizcastd) (tr : List cc_call)
    (url mime_type title : String) :
    (tizcastd.load_url lib self tr url mime_type title).2 =
      (self, tr ++ [cc_call.tiz_chromecast_load_url self.p_cc_
        (c_str url) (c_str mime_type) (c_str title)]) ∧
    (c_str url).data = url.data.takeWhile (fun c => c ≠ Char.ofNat 0) ∧
    (c_str mime_type).data = mime_type.data.takeWhile (fun c => c ≠ Char.ofNat 0) ∧
    (c_str title).data = title.data.takeWhile (fun c => c ≠ Char.ofNat 0) ∧
    (Char.ofNat 0 ∉ url.data → Char.ofNat 0 ∉ mime_type.data → Char.ofNat 0 ∉ title.data →
      (tizcastd.load_url lib self tr url mime_type title).2 =
        (self, tr ++ [cc_call.tiz_chromecast_load_url self.p_cc_ url mime_type title])) ∧
    (tizcastd.play lib self tr).2 = (self, tr ++ [cc_call.tiz_chromecast_play self.p_cc_]) ∧
    (tizcastd.stop lib self tr).2 = (self, tr ++ [cc_call.tiz_chromecast_stop self.p_cc_]) ∧
    (tizcastd.pause lib self tr).2 = (self, tr ++ [cc_call.tiz_chromecast_pause self.p_cc_]) ∧
    (tizcastd.volume_up lib self tr).2 =
      (self, tr ++ [cc_call.tiz_chromecast_volume_up self.p_cc_]) ∧
    (tizcastd.volume_down lib self tr).2 =
      (self, tr ++ [cc_call.tiz_chromecast_volume_down self.p_cc_]) ∧
    (tizcastd.mute lib self tr).2 = (self, tr ++ [cc_call.tiz_chromecast_mute self.p_cc_]) ∧
    (tizcastd.unmute lib self tr).2 =
      (self, tr ++ [cc_call.tiz_chromecast_unmute self.p_cc_]) := by
  refine ⟨rfl, rfl, rfl, rfl, ?_, rfl, rfl, rfl, rfl, rfl, rfl, rfl⟩
  intro h1 h2 h3
  simp only [tizcastd.load_url, chromecast_lib.call, c_str_of_no_nul _ h1,
    c_str_of_no_nul _ h2, c_str_of_no_nul _ h3]

/-- C3 as claimed fails at a url holding a NUL: for the url `ab`, NUL, `cd` the
library is handed the url `ab`, not the caller's argument. -/
theorem load_url_nul_truncated :
    (tizcastd.load_url demo_lib { p_cc_ := 1 } [] nul_url "" "").2.2 =
        [cc_call.tiz_chromecast_load_url 1 "ab" "" ""] ∧
    (tizcastd.load_url demo_lib { p_cc_ := 1 } [] nul_url "" "").2.2 ≠
        [cc_call.tiz_chromecast_load_url 1 nul_url "" ""] := by
  decide

/-- C10: for every user-data pointer, `cc_new_media_status_cback` returns the
daemon and the trace of library calls exactly as it found them. -/
theorem media_status_cback_noop (ap_user_data : Nat) (self : tizcastd) (tr : List cc_call) :
    cc_new_media_status_cback ap_user_data self tr = (self, tr) := rfl

end Cast

namespace Mp4Dmux

theorem port.allocate_inv (caps : List Nat) : (port.allocate caps).inv := by
  refine ⟨?_, ?_, ?_⟩
  · simp [port.allocate, List.map_map, Function.comp_def, List.enum_map_fst]
  · simp [port.allocate, List.nodup_range]
  · intro i; simp [port.allocate]

theorem port.inv_nodup {p : port} (h : p.inv) :
    (p.empty.map buffer_header.id ++ p.lent ++ p.downstream.map buffer_header.id).Nodup :=
  h.1.nodup_iff.mpr h.2.1

theorem port.acquire_inv {p q : port} {b : buffer_header} (h : p.inv)
    (hq : p.acquire_empty_buffer = .ok (b, q)) : q.inv := by
  unfold port.acquire_empty_buffer at hq
  split at hq
  · cases hq
  · split at hq
    · cases hq
    · rename_i hd rest he
      injection hq with hq
      injection hq with hb hq
      subst hb hq
      obtain ⟨h1, h2, h3⟩ := h
      refine ⟨?_, h2, ?_⟩
      · rw [he] at h1
        rw [List.perm_iff_count] at h1 ⊢
        intro a
        have := h1 a
        simp only [List.map_cons, List.count_append, List.count_cons, List.count_nil] at this ⊢
        omega
      · intro i
        have := h3 i
        simp only [List.count_append]
        simp only [List.count_cons, List.count_nil] at *
        omega

theorem count_erase_of_mem {α : Type} [DecidableEq α] {l : List α} {b : α} (hb : b ∈ l) (a : α) :
    (l.erase b).count a + (if b = a then 1 else 0) = l.count a := by
  have hp : 0 < l.count b := List.count_pos_iff.mpr hb
  rw [List.count_erase]
  by_cases h : b = a
  · subst h; simp; omega
  · have : (b == a) = false := by simpa using h
    simp [h, this]

theorem port.deliver_inv {p q : port} {b : buffer_header} (h : p.inv)
    (hq : p.deliver_filled_buffer b = .ok q) : q.inv := by
  unfold port.deliver_filled_buffer at hq
  split at hq
  · cases hq
  · split at hq
    · rename_i hm
      injection hq with hq
      subst hq
      obtain ⟨h1, h2, h3⟩ := h
      refine ⟨?_, h2, ?_⟩
      · rw [List.perm_iff_count] at h1 ⊢
        intro a
        have := h1 a
        have he := count_erase_of_mem hm a
        simp only [List.map_append, List.map_cons, List.map_nil, List.count_append,
          List.count_cons, List.count_nil] at this ⊢
        by_cases hba : b.id = a
        · simp only [hba, if_true, beq_self_eq_true] at he ⊢; omega
        · have : (b.id == a) = false := by simpa using hba
          simp only [hba, if_false, this] at he ⊢; simp; omega
      · intro i
        have := h3 i
        have he := count_erase_of_mem hm i
        simp only [List.map_append, List.map_cons, List.map_nil, List.count_append,
          List.count_cons, List.count_nil] at this ⊢
        by_cases hba : b.id = i
        · simp only [hba, if_true, beq_self_eq_true] at he ⊢; omega
        · have : (b.id == i) = false := by simpa using hba
          simp only [hba, if_false, this] at he ⊢; simp; omega
    · cases hq

theorem port.return_inv {p q : port} {b : buffer_header} (h : p.inv)
    (hq : p.return_empty_buffer b = .ok q) : q.inv := by
  unfold port.return_empty_buffer at hq
  split at hq
  · rename_i hm
    injection hq with hq
    subst hq
    obtain ⟨h1, h2, h3⟩ := h
    refine ⟨?_, h2, ?_⟩
    · rw [List.perm_iff_count] at h1 ⊢
      intro a
      have := h1 a
      have he := count_erase_of_mem hm a
      simp only [List.map_append, List.map_cons, List.map_nil, List.count_append,
        List.count_cons, List.count_nil, buffer_header.cleared] at this ⊢
      by_cases hba : b.id = a
      · simp only [hba, if_true, beq_self_eq_true] at he ⊢; omega
      · have : (b.id == a) = false := by simpa using hba
        simp only [hba, if_false, this] at he ⊢; simp; omega
    · intro i
      have := h3 i
      have he := count_erase_of_mem hm i
      simp only [List.map_append, List.map_cons, List.map_nil, List.count_append,
        List.count_cons, List.count_nil] at this ⊢
      by_cases hba : b.id = i
      · simp only [hba, if_true, beq_self_eq_true] at he ⊢; omega
      · have : (b.id == i) = false := by simpa using hba
        simp only [hba, if_false, this] at he ⊢; simp; omega
  · cases hq

theorem count_map_erase_of_mem {l : List buffer_header} {b : buffer_header} (hb : b ∈ l) (a : Nat) :
    ((l.erase b).map buffer_header.id).count a + (if b.id = a then 1 else 0)
      = (l.map buffer_header.id).count a := by
  have := (List.perm_cons_erase hb).map buffer_header.id
  rw [List.perm_iff_count] at this
  have := this a
  simp only [List.map_cons, List.count_cons] at this
  by_cases hba : b.id = a
  · simp only [hba, if_true, beq_self_eq_true] at this ⊢; omega
  · have hf : (b.id == a) = false := by simpa using hba
    simp only [hba, if_false, hf] at this ⊢; simp at this; omega

theorem port.relend_inv {p : port} (id : Nat) (h : p.inv) : (p.relend id).inv := by
  unfold port.relend
  split
  · rename_i b hf
    have hm : b ∈ p.downstream := List.mem_of_find?_eq_some hf
    obtain ⟨h1, h2, h3⟩ := h
    refine ⟨?_, h2, h3⟩
    rw [List.perm_iff_count] at h1 ⊢
    intro a
    have := h1 a
    have he := count_map_erase_of_mem hm a
    simp only [List.map_append, List.map_cons, List.map_nil, List.count_append,
      List.count_cons, List.count_nil, buffer_header.cleared] at this ⊢
    by_cases hba : b.id = a
    · simp only [hba, if_true, beq_self_eq_true] at he ⊢; omega
    · have : (b.id == a) = false := by simpa using hba
      simp only [hba, if_false, this] at he ⊢; simp; omega
  · exact h

theorem port.apply_inv {p : port} (op : port_op) (h : p.inv) : (p.apply op).inv := by
  cases op with
  | AcquireEmptyBuffer =>
    simp only [port.apply]
    split
    · rename_i r hr
      exact port.acquire_inv (b := r.1) (q := r.2) h hr
    · exact h
  | SubmitFilledBuffer b =>
    simp only [port.apply]
    split
    · rename_i q hq; exact port.deliver_inv h hq
    · exact h
  | ReturnEmptyBuffer b =>
    simp only [port.apply]
    split
    · rename_i q hq; exact port.return_inv h hq
    · exact h
  | Relend id => exact port.relend_inv id h
  | Enable => exact h
  | Disable => exact h

theorem port.run_inv (ops : List port_op) {p : port} (h : p.inv) : (p.run ops).inv := by
  induction ops generalizing p with
  | nil => exact h
  | cons op ops ih => exact ih (port.apply_inv op h)

theorem port.inv_in_flight {p : port} (h : p.inv) :
    p.empty.length + p.in_flight = p.pool.length := by
  have := h.1.length_eq
  simp only [List.length_append, List.length_map] at this
  unfold port.in_flight
  omega

theorem port.inv_lent_nodup {p : port} (h : p.inv) : p.lent.Nodup := by
  have := port.inv_nodup h
  rw [List.append_assoc] at this
  exact (List.nodup_append.mp (List.nodup_append.mp this).2.1).1

theorem port.inv_delivered_le {p : port} (h : p.inv) (i : Nat) :
    (p.delivered.map buffer_header.id).count i + p.returned.count i ≤ p.acquired.count i := by
  have := h.2.2 i
  omega

end Mp4Dmux

namespace Mp4Dmux

theorem to_int_range (x : Int) : INT_MIN ≤ to_int x ∧ to_int x ≤ INT_MAX := by
  unfold to_int INT_MIN INT_MAX
  omega

theorem to_int_of_fits (x : Int) (h1 : INT_MIN ≤ x) (h2 : x ≤ INT_MAX) : to_int x = x := by
  unfold to_int
  unfold INT_MIN at h1
  unfold INT_MAX at h2
  omega

theorem source.inv_init (m : demux_model) (hint : Option Int) : (source.init m hint).inv m where
  port_inv := port.allocate_inv []
  lent_eq := rfl
  empty_clear := by simp [source.init, port.allocate]
  held_clear := by simp [source.init]
  cached_src := by simp [source.init]
  trans_uri := by simp [source.init]
  demux_src := by simp [source.init]
  emitted_src := by simp [source.init]
  emitted_le := by simp [source.init]
  eos_old := by simp [source.init]
  eos_last := by simp [source.init]
  cache_eq := rfl
  bitrate_int := to_int_range _
  trans_cache := by simp [source.init]

theorem port.return_fields {p q : port} {b : buffer_header}
    (hq : p.return_empty_buffer b = .ok q) :
    b.id ∈ p.lent ∧ q.lent = p.lent.erase b.id ∧ q.empty = p.empty ++ [b.cleared] ∧
      q.enabled = p.enabled ∧ q.pool = p.pool := by
  unfold port.return_empty_buffer at hq
  split at hq
  · rename_i hm
    injection hq with hq
    subst hq
    exact ⟨hm, rfl, rfl, rfl, rfl⟩
  · cases hq

theorem source.inv_release_buffer {m : demux_model} {s : source} (h : s.inv m) :
    s.release_buffer.inv m := by
  unfold source.release_buffer
  split
  · exact h
  · rename_i hd hh
    have hl := h.lent_eq
    rw [hh] at hl
    simp only [Option.map_some', Option.toList_some] at hl
    split
    · rename_i q hq
      obtain ⟨_, h2, h3, _, _⟩ := port.return_fields hq
      exact { h with
        port_inv := port.return_inv h.port_inv hq
        lent_eq := by simp [h2, hl]
        empty_clear := by
          intro b hb
          simp only [h3, List.mem_append, List.mem_singleton] at hb
          rcases hb with hb | hb
          · exact h.empty_clear b hb
          · subst hb; simp [buffer_header.cleared]
        held_clear := by simp }
    · rename_i e he
      exfalso
      unfold port.return_empty_buffer at he
      rw [hl] at he
      simp at he

theorem transport_open_fields {loc : Option String} {hint : Int}
    {failure : Option transport_error} {t : transport_session}
    (h : transport_open loc hint failure = .ok t) :
    loc = some t.locator ∧ t.cached = [] ∧ t.eos = false ∧ t.cache_target = hint := by
  unfold transport_open at h
  split at h
  · cases h
  · cases h
  · injection h with h
    subst h
    exact ⟨rfl, rfl, rfl, rfl⟩

/-- Opening a transport keeps the invariant when the demux state already
belongs to the configured locator or is empty. -/
theorem source.inv_open_transport {m : demux_model} {s : source}
    (failure : Option transport_error) (h : s.inv m) : (s.open_transport failure).inv m := by
  unfold source.open_transport
  split
  · rename_i t ht
    obtain ⟨h1, h2, h3, h4⟩ := transport_open_fields ht
    exact { h with
      cached_src := by
        intro t' ht' b hb
        simp only [Option.some.injEq] at ht'
        subst ht'
        simp [h2] at hb
      trans_uri := by
        intro _ t' ht'
        simp only [Option.some.injEq] at ht'
        subst ht'
        exact h1
      emitted_le := fun e he => Nat.le_succ_of_le (h.emitted_le e he)
      eos_old := fun _ e he _ => Nat.lt_succ_of_le (h.emitted_le e he)
      trans_cache := by
        intro t' ht'
        simp only [Option.some.injEq] at ht'
        subst ht'
        exact h4 }
  · exact { h with
      cached_src := by simp
      trans_uri := by simp
      emitted_le := fun e he => Nat.le_succ_of_le (h.emitted_le e he)
      eos_old := fun _ e he _ => Nat.lt_succ_of_le (h.emitted_le e he)
      trans_cache := by simp }

theorem source.inv_handle_uri_change {m : demux_model} {s : source}
    (failure : Option transport_error) (h : s.inv m) :
    (s.handle_uri_change failure).inv m := by
  unfold source.handle_uri_change
  split
  · simp only [source.open_transport]
    split
    · rename_i t ht
      obtain ⟨h1, h2, h3, h4⟩ := transport_open_fields ht
      exact { h with
        cached_src := by
          intro t' ht' b hb
          simp only [Option.some.injEq] at ht'
          subst ht'
          simp [h2] at hb
        trans_uri := by
          intro _ t' ht'
          simp only [Option.some.injEq] at ht'
          subst ht'
          exact h1
        demux_src := by simp
        emitted_le := fun e he => Nat.le_succ_of_le (h.emitted_le e he)
        eos_old := fun _ e he _ => Nat.lt_succ_of_le (h.emitted_le e he)
        trans_cache := by
          intro t' ht'
          simp only [Option.some.injEq] at ht'
          subst ht'
          exact h4 }
    · exact { h with
        cached_src := by simp
        trans_uri := by simp
        demux_src := by simp
        emitted_le := fun e he => Nat.le_succ_of_le (h.emitted_le e he)
        eos_old := fun _ e he _ => Nat.lt_succ_of_le (h.emitted_le e he)
        trans_cache := by simp }
  · exact h

theorem source.inv_update_cache_size {m : demux_model} {s : source} (bitrate : Int)
    (h : s.inv m) : (s.update_cache_size m bitrate).inv m := by
  unfold source.update_cache_size
  exact { h with
    cached_src := by
      intro t ht b hb
      simp only [Option.map_eq_some'] at ht
      obtain ⟨t0, ht0, rfl⟩ := ht
      exact h.cached_src t0 ht0 b hb
    trans_uri := by
      intro hu t ht
      simp only [Option.map_eq_some'] at ht
      obtain ⟨t0, ht0, rfl⟩ := ht
      exact h.trans_uri hu t0 ht0
    cache_eq := rfl
    bitrate_int := to_int_range _
    trans_cache := by
      intro t ht
      simp only [Option.map_eq_some'] at ht
      obtain ⟨t0, ht0, rfl⟩ := ht
      rfl }

theorem source.inv_set_coding {m : demux_model} {s : source} (c : Int) (h : s.inv m) :
    source.inv m { s with prc := { s.prc with audio_coding_type_ := c } } :=
  { h with }

theorem source.inv_auto_detect {m : demux_model} {s s2 : source} (h : s.inv m)
    (h2 : s.auto_detect m = some s2) : s2.inv m := by
  unfold source.auto_detect at h2
  split at h2
  · cases h2; exact h
  · split at h2
    · split at h2
      · cases h2
      · injection h2 with h2
        subst h2
        exact source.inv_update_cache_size _ (source.inv_set_coding _ h)
    · cases h2; exact h

theorem port.acquire_fields {p q : port} {b : buffer_header}
    (hq : p.acquire_empty_buffer = .ok (b, q)) :
    p.empty = b :: q.empty ∧ q.lent = p.lent ++ [b.id] ∧ q.enabled = p.enabled := by
  unfold port.acquire_empty_buffer at hq
  split at hq
  · cases hq
  · split at hq
    · cases hq
    · rename_i hd rest he
      injection hq with hq
      injection hq with hb hq
      subst hb hq
      exact ⟨he, rfl, rfl⟩

theorem source.inv_take_buffer {m : demux_model} {s s0 : source} (h : s.inv m)
    (h0 : s.take_buffer = some s0) : s0.inv m := by
  unfold source.take_buffer at h0
  split at h0
  · cases h0; exact h
  · rename_i hn
    split at h0
    · rename_i r hr
      injection h0 with h0
      subst h0
      obtain ⟨h1, h2, h3⟩ := port.acquire_fields (b := r.1) (q := r.2) hr
      have hl := h.lent_eq
      rw [hn] at hl
      simp only [Option.map_none', Option.toList_none] at hl
      exact { h with
        port_inv := port.acquire_inv (b := r.1) (q := r.2) h.port_inv hr
        lent_eq := by simp [h2, hl]
        empty_clear := by
          intro b hb
          exact h.empty_clear b (by rw [h1]; exact List.mem_cons_of_mem _ hb)
        held_clear := by
          intro hd hhd
          simp only [Option.some.injEq] at hhd
          subst hhd
          exact h.empty_clear _ (by rw [h1]; exact List.mem_cons_self _ _) }
    · cases h0

theorem source.inv_demux {m : demux_model} {s : source} (h : s.inv m) : (s.demux m).inv m := by
  unfold source.demux
  split
  · rename_i hc
    exact { h with
      demux_src := by
        intro hu b hb
        apply h.demux_src hu b
        simp only [List.mem_append] at hb ⊢
        rcases hb with hb | hb
        · exact Or.inl (List.mem_of_mem_drop hb)
        · exact Or.inl (List.mem_of_mem_take hb) }
  · exact h

theorem port.deliver_fields {p q : port} {b : buffer_header}
    (hq : p.deliver_filled_buffer b = .ok q) :
    p.enabled = true ∧ b.id ∈ p.lent ∧ q.lent = p.lent.erase b.id ∧ q.empty = p.empty ∧
      q.delivered = p.delivered ++ [b] := by
  unfold port.deliver_filled_buffer at hq
  split at hq
  · cases hq
  · rename_i hen
    split at hq
    · rename_i hm
      injection hq with hq
      subst hq
      exact ⟨by simpa using hen, hm, rfl, rfl, rfl⟩
    · cases hq

theorem source.inv_emit {m : demux_model} {s : source} {h b : buffer_header} (hi : s.inv m)
    (hh : s.prc.p_outhdr_ = some h) (hid : b.id = h.id) (he : s.prc.eos_ = false)
    (hb : ∀ b1 ∈ b.data, ∀ b2 ∈ b.data, b1.src = b2.src) : (s.emit b).inv m := by
  unfold source.emit
  split
  · rename_i q hq
    obtain ⟨_, _, h3, h4, _⟩ := port.deliver_fields hq
    have hl := hi.lent_eq
    rw [hh] at hl
    simp only [Option.map_some', Option.toList_some] at hl
    exact { hi with
      port_inv := port.deliver_inv hi.port_inv hq
      lent_eq := by simp [h3, hl, hid]
      empty_clear := by rw [h4]; exact hi.empty_clear
      held_clear := by simp
      emitted_src := by
        intro e hem
        simp only [List.mem_append, List.mem_singleton] at hem
        rcases hem with hem | hem
        · exact hi.emitted_src e hem
        · subst hem; exact hb
      emitted_le := by
        intro e hem
        simp only [List.mem_append, List.mem_singleton] at hem
        rcases hem with hem | hem
        · exact hi.emitted_le e hem
        · subst hem; exact Nat.le_refl _
      eos_old := by
        intro hf e hem hee
        simp only [he, Bool.false_or] at hf
        simp only [List.mem_append, List.mem_singleton] at hem
        rcases hem with hem | hem
        · exact hi.eos_old he e hem hee
        · subst hem; simp [hf] at hee
      eos_last := by
        rw [List.pairwise_append]
        refine ⟨hi.eos_last, List.pairwise_singleton _ _, ?_⟩
        intro a ha c hc
        simp only [List.mem_singleton] at hc
        subst hc
        exact ⟨hi.emitted_le a ha, fun hae => hi.eos_old he a ha hae⟩ }
  · exact source.inv_release_buffer hi

theorem source.demux_prc (m : demux_model) (s : source) : (s.demux m).prc = s.prc := by
  unfold source.demux; split <;> rfl

theorem source.demux_port (m : demux_model) (s : source) : (s.demux m).port = s.port := by
  unfold source.demux; split <;> rfl

theorem source.demux_emitted (m : demux_model) (s : source) :
    (s.demux m).emitted = s.emitted := by
  unfold source.demux; split <;> rfl

theorem source.demux_session_no (m : demux_model) (s : source) :
    (s.demux m).session_no = s.session_no := by
  unfold source.demux; split <;> rfl

theorem source.demux_state (m : demux_model) (s : source) : (s.demux m).state = s.state := by
  unfold source.demux; split <;> rfl

/-- Reading from the session keeps the invariant when no locator change is pending. -/
theorem source.inv_read {m : demux_model} {s : source} {t : transport_session} (n : Nat)
    (hi : s.inv m) (ht : s.prc.p_trans_ = some t) (hu : s.prc.uri_changed_ = false) :
    source.inv m { s with prc := { s.prc with p_trans_ := some (t.read n).2.2 },
                          raw := s.raw ++ (t.read n).1 } := by
  have hloc := hi.trans_uri hu t ht
  exact { hi with
    cached_src := by
      intro t' ht' b hb
      simp only [Option.some.injEq] at ht'
      subst ht'
      simp only [transport_session.read] at hb ⊢
      exact hi.cached_src t ht b (List.mem_of_mem_drop hb)
    trans_uri := by
      intro _ t' ht'
      simp only [Option.some.injEq] at ht'
      subst ht'
      exact hloc
    demux_src := by
      intro _ b hb
      simp only [List.mem_append, transport_session.read] at hb
      rcases hb with (hb | hb) | hb
      · exact hi.demux_src hu b (List.mem_append.mpr (Or.inl hb))
      · rw [hloc, hi.cached_src t ht b (List.mem_of_mem_take hb)]
      · exact hi.demux_src hu b (List.mem_append.mpr (Or.inr hb))
    trans_cache := by
      intro t' ht'
      simp only [Option.some.injEq] at ht'
      subst ht'
      exact hi.trans_cache t ht }

theorem source.inv_drop_pending {m : demux_model} {s : source} (n : Nat) (hi : s.inv m) :
    source.inv m { s with pending_unit := s.pending_unit.drop n } :=
  { hi with
    demux_src := by
      intro hu b hb
      apply hi.demux_src hu b
      simp only [List.mem_append] at hb ⊢
      rcases hb with hb | hb
      · exact Or.inl hb
      · exact Or.inr (List.mem_of_mem_drop hb) }

theorem source.inv_copy_and_emit {m : demux_model} {s : source} {h : buffer_header}
    (eos : Bool) (hi : s.inv m) (hh : s.prc.p_outhdr_ = some h) (he : s.prc.eos_ = false)
    (hu : s.prc.uri_changed_ = false) : (s.copy_and_emit m eos h).inv m := by
  have h5 := source.inv_drop_pending (h.capacity - h.data.length) hi
  have hsrc : ∀ b1 ∈ h.data ++ s.pending_unit.take (h.capacity - h.data.length),
      s.prc.p_uri_ = some b1.src := by
    intro b1 hb1
    rw [(hi.held_clear h hh).1, List.nil_append] at hb1
    exact hi.demux_src hu b1 (List.mem_append.mpr (Or.inr (List.mem_of_mem_take hb1)))
  have hsame : ∀ b1 ∈ h.data ++ s.pending_unit.take (h.capacity - h.data.length),
      ∀ b2 ∈ h.data ++ s.pending_unit.take (h.capacity - h.data.length), b1.src = b2.src := by
    intro b1 hb1 b2 hb2
    have e1 := hsrc b1 hb1
    have e2 := hsrc b2 hb2
    rw [e1] at e2
    exact Option.some.inj e2
  unfold source.copy_and_emit
  dsimp only
  split
  · exact source.inv_emit (h := h) h5 hh rfl he hsame
  · split
    · exact source.inv_emit (h := h) h5 hh rfl he hsame
    · exact h5

theorem source.inv_pull_and_fill {m : demux_model} {s : source} (max_len : Nat) (hi : s.inv m)
    (he : s.prc.eos_ = false) (hu : s.prc.uri_changed_ = false) :
    (s.pull_and_fill m max_len).inv m := by
  unfold source.pull_and_fill
  split
  · rename_i t h ht hh
    dsimp only
    split
    · exact hi
    · have h3 := source.inv_demux (m := m) (source.inv_read max_len hi ht hu)
      refine source.inv_copy_and_emit _ h3 ?_ ?_ ?_
      · rw [source.demux_prc]; exact hh
      · rw [source.demux_prc]; exact he
      · rw [source.demux_prc]; exact hu
  · exact hi

theorem source.take_buffer_fields {s s0 : source} (h0 : s.take_buffer = some s0) :
    s0.prc.eos_ = s.prc.eos_ ∧ s0.prc.uri_changed_ = s.prc.uri_changed_ ∧
      s0.state = s.state ∧ s0.emitted = s.emitted ∧ s0.session_no = s.session_no ∧
      s0.prc.p_trans_ = s.prc.p_trans_ ∧ s0.raw = s.raw ∧ s0.pending_unit = s.pending_unit ∧
      s0.prc.p_uri_ = s.prc.p_uri_ ∧ s0.prc.port_disabled_ = s.prc.port_disabled_ ∧
      s0.prc.bitrate_ = s.prc.bitrate_ ∧ s0.prc.cache_bytes_ = s.prc.cache_bytes_ ∧
      ∃ h, s0.prc.p_outhdr_ = some h := by
  unfold source.take_buffer at h0
  split at h0
  · rename_i hd hh
    cases h0
    exact ⟨rfl, rfl, rfl, rfl, rfl, rfl, rfl, rfl, rfl, rfl, rfl, rfl, hd, hh⟩
  · split at h0
    · injection h0 with h0
      subst h0
      exact ⟨rfl, rfl, rfl, rfl, rfl, rfl, rfl, rfl, rfl, rfl, rfl, rfl, _, rfl⟩
    · cases h0

theorem source.handle_uri_change_fields (s : source) (failure : Option transport_error) :
    (s.handle_uri_change failure).prc.uri_changed_ = false ∧
      (s.handle_uri_change failure).prc.p_outhdr_ = s.prc.p_outhdr_ ∧
      (s.handle_uri_change failure).emitted = s.emitted ∧
      (s.handle_uri_change failure).port = s.port ∧
      (s.handle_uri_change failure).prc.bitrate_ = s.prc.bitrate_ ∧
      (s.handle_uri_change failure).prc.cache_bytes_ = s.prc.cache_bytes_ ∧
      (s.handle_uri_change failure).prc.p_uri_ = s.prc.p_uri_ ∧
      (s.prc.uri_changed_ = true → (s.handle_uri_change failure).prc.eos_ = false) ∧
      (s.prc.uri_changed_ = false → s.handle_uri_change failure = s) := by
  unfold source.handle_uri_change
  split
  · rename_i hc
    simp only [source.open_transport]
    split <;> simp [hc]
  · rename_i hc
    simp only [Bool.not_eq_true] at hc
    simp [hc]

theorem source.auto_detect_fields {m : demux_model} {s s2 : source}
    (h2 : s.auto_detect m = some s2) :
    s2.prc.eos_ = s.prc.eos_ ∧ s2.prc.uri_changed_ = s.prc.uri_changed_ ∧
      s2.prc.p_outhdr_ = s.prc.p_outhdr_ ∧ s2.emitted = s.emitted ∧ s2.port = s.port ∧
      s2.state = s.state ∧ s2.session_no = s.session_no ∧ s2.raw = s.raw ∧
      s2.pending_unit = s.pending_unit ∧ s2.prc.p_uri_ = s.prc.p_uri_ ∧
      (∀ t2, s2.prc.p_trans_ = some t2 → ∃ t, s.prc.p_trans_ = some t ∧
        t2.cached = t.cached ∧ t2.eos = t.eos ∧ t2.locator = t.locator) := by
  unfold source.auto_detect at h2
  split at h2
  · cases h2
    rename_i hn
    simp [hn]
  · rename_i t ht
    split at h2
    · split at h2
      · cases h2
      · injection h2 with h2
        subst h2
        simp [source.update_cache_size, ht]
    · cases h2
      simp [ht]

theorem source.inv_set_state_error {m : demux_model} {s : source} (h : s.inv m) :
    source.inv m { s with state := lifecycle.Error } :=
  { h with }

theorem source.inv_fill_cycle {m : demux_model} {s : source} (max_len : Nat)
    (failure : Option transport_error) (hi : s.inv m) :
    (s.fill_cycle m max_len failure).inv m := by
  unfold source.fill_cycle
  split
  · exact hi
  · split
    · exact hi
    · rename_i hg
      split
      · exact hi
      · rename_i s0 h0
        have hi0 := source.inv_take_buffer hi h0
        obtain ⟨f1, f2, _⟩ := source.take_buffer_fields h0
        have hi1 := source.inv_handle_uri_change failure hi0
        obtain ⟨g1, _, _, _, _, _, _, g2, g3⟩ := source.handle_uri_change_fields s0 failure
        have he1 : (s0.handle_uri_change failure).prc.eos_ = false := by
          cases hc : s0.prc.uri_changed_
          · rw [g3 hc, f1]
            rw [f2] at hc
            cases he : s.prc.eos_
            · rfl
            · exact absurd ⟨he, hc⟩ hg
          · exact g2 hc
        dsimp only
        split
        · exact hi1
        · split
          · exact source.inv_set_state_error hi1
          · rename_i s2 h2
            obtain ⟨a1, a2, _⟩ := source.auto_detect_fields h2
            exact source.inv_pull_and_fill max_len (source.inv_auto_detect hi1 h2)
              (by rw [a1]; exact he1) (by rw [a2]; exact g1)

theorem port.inv_enabled {p : port} (b : Bool) (h : p.inv) :
    port.inv { p with enabled := b } := h

theorem source.inv_reallocate {m : demux_model} {s : source} (caps : List Nat)
    (st : lifecycle) (h : s.inv m) :
    source.inv m { s with state := st,
                          port := { port.allocate caps with enabled := !s.prc.port_disabled_ },
                          prc := { s.prc with p_outhdr_ := none } } :=
  { h with
    port_inv := port.inv_enabled _ (port.allocate_inv caps)
    lent_eq := rfl
    empty_clear := by
      intro b hb
      simp only [port.allocate, List.mem_map] at hb
      obtain ⟨ic, _, rfl⟩ := hb
      exact ⟨rfl, rfl⟩
    held_clear := by simp }

theorem source.inv_close {m : demux_model} {s : source} (st : lifecycle) (h : s.inv m) :
    source.inv m { s with state := st, prc := { s.prc with p_trans_ := none } } :=
  { h with
    cached_src := by simp
    trans_uri := by simp
    trans_cache := by simp }

theorem source.inv_map_trans {m : demux_model} {s : source} (st : lifecycle)
    (f : transport_session → transport_session)
    (hc : ∀ t, (f t).cached = t.cached) (hl : ∀ t, (f t).locator = t.locator)
    (ht : ∀ t, (f t).cache_target = t.cache_target) (h : s.inv m) :
    source.inv m { s with state := st, prc := { s.prc with p_trans_ := s.prc.p_trans_.map f } } :=
  { h with
    cached_src := by
      intro t htt b hb
      simp only [Option.map_eq_some'] at htt
      obtain ⟨t0, ht0, rfl⟩ := htt
      rw [hl]
      rw [hc] at hb
      exact h.cached_src t0 ht0 b hb
    trans_uri := by
      intro hu t htt
      simp only [Option.map_eq_some'] at htt
      obtain ⟨t0, ht0, rfl⟩ := htt
      rw [hl]
      exact h.trans_uri hu t0 ht0
    trans_cache := by
      intro t htt
      simp only [Option.map_eq_some'] at htt
      obtain ⟨t0, ht0, rfl⟩ := htt
      rw [ht]
      exact h.trans_cache t0 ht0 }

theorem source.inv_set_state {m : demux_model} {s : source} (target : lifecycle)
    (failure : Option transport_error) (h : s.inv m) : (s.set_state m target failure).inv m := by
  unfold source.set_state
  split
  · exact source.inv_reallocate _ _ h
  · exact source.inv_open_transport failure (s := { s with state := lifecycle.Executing })
      { h with }
  · exact source.inv_map_trans _ _ (fun _ => rfl) (fun _ => rfl) (fun _ => rfl) h
  · exact source.inv_map_trans _ _ (fun _ => rfl) (fun _ => rfl) (fun _ => rfl) h
  · exact source.inv_release_buffer (source.inv_close _ h)
  · exact source.inv_release_buffer (source.inv_close _ h)
  · exact source.inv_reallocate _ _ h
  · exact h

theorem transport_session.prefetch_fields (t : transport_session) (bytes : List Nat)
    (eos : Bool) :
    (t.prefetch bytes eos).locator = t.locator ∧
      (t.prefetch bytes eos).cache_target = t.cache_target ∧
      ∀ b ∈ (t.prefetch bytes eos).cached, b ∈ t.cached ∨ b.src = t.locator := by
  unfold transport_session.prefetch
  split
  · exact ⟨rfl, rfl, fun b hb => Or.inl hb⟩
  · refine ⟨rfl, rfl, ?_⟩
    intro b hb
    simp only [List.mem_append, List.mem_map] at hb
    rcases hb with hb | ⟨v, _, rfl⟩
    · exact Or.inl hb
    · exact Or.inr rfl

theorem source.inv_step {m : demux_model} {s : source} (ev : event) (h : s.inv m) :
    (s.step m ev).inv m := by
  cases ev with
  | SetState target failure => exact source.inv_set_state target failure h
  | Reset =>
    simp only [source.step]
    split
    · exact source.inv_release_buffer (source.inv_close _ h)
    · exact h
  | EnablePort => exact { h with port_inv := port.inv_enabled _ h.port_inv }
  | DisablePort =>
    have h1 := source.inv_release_buffer h
    exact { h1 with port_inv := port.inv_enabled _ h1.port_inv }
  | SetLocator uri mime_hint =>
    exact { h with
      trans_uri := by simp [source.step]
      demux_src := by simp [source.step] }
  | Flush => exact source.inv_release_buffer h
  | TransportData bytes eos =>
    simp only [source.step]
    exact { h with
      cached_src := by
        intro t htt b hb
        simp only [Option.map_eq_some'] at htt
        obtain ⟨t0, ht0, rfl⟩ := htt
        obtain ⟨p1, _, p3⟩ := t0.prefetch_fields bytes eos
        rw [p1]
        rcases p3 b hb with hb | hb
        · exact h.cached_src t0 ht0 b hb
        · exact hb
      trans_uri := by
        intro hu t htt
        simp only [Option.map_eq_some'] at htt
        obtain ⟨t0, ht0, rfl⟩ := htt
        rw [(t0.prefetch_fields bytes eos).1]
        exact h.trans_uri hu t0 ht0
      trans_cache := by
        intro t htt
        simp only [Option.map_eq_some'] at htt
        obtain ⟨t0, ht0, rfl⟩ := htt
        rw [(t0.prefetch_fields bytes eos).2.1]
        exact h.trans_cache t0 ht0 }
  | TransportFailure =>
    simp only [source.step]
    split
    · exact h
    · rename_i t ht
      exact { h with
        cached_src := by
          intro t' ht' b hb
          simp only [Option.some.injEq] at ht'
          subst ht'
          exact h.cached_src t ht b hb
        trans_uri := by
          intro hu t' ht'
          simp only [Option.some.injEq] at ht'
          subst ht'
          exact h.trans_uri hu t ht
        trans_cache := by
          intro t' ht'
          simp only [Option.some.injEq] at ht'
          subst ht'
          exact h.trans_cache t ht }
  | BitrateEstimate bitrate => exact source.inv_update_cache_size bitrate h
  | Relend id =>
    simp only [source.step]
    exact { h with
      port_inv := port.relend_inv id h.port_inv
      lent_eq := by
        have := h.lent_eq
        unfold port.relend
        split <;> exact this
      empty_clear := by
        intro b hb
        unfold port.relend at hb
        split at hb
        · simp only [List.mem_append, List.mem_singleton] at hb
          rcases hb with hb | hb
          · exact h.empty_clear b hb
          · subst hb; exact ⟨rfl, rfl⟩
        · exact h.empty_clear b hb }
  | FillCycle max_len failure => exact source.inv_fill_cycle max_len failure h

theorem source.inv_run {m : demux_model} (evs : List event) {s : source} (h : s.inv m) :
    (s.run m evs).inv m := by
  induction evs generalizing s with
  | nil => exact h
  | cons ev evs ih => exact ih (source.inv_step ev h)

theorem source.run_append (m : demux_model) (s : source) (e1 e2 : List event) :
    s.run m (e1 ++ e2) = (s.run m e1).run m e2 := by
  simp [source.run, List.foldl_append]

end Mp4Dmux

namespace Mp4Dmux

theorem source.release_buffer_fields (s : source) :
    s.release_buffer.emitted = s.emitted ∧ s.release_buffer.prc.eos_ = s.prc.eos_ ∧
      s.release_buffer.prc.uri_changed_ = s.prc.uri_changed_ ∧
      s.release_buffer.session_no = s.session_no ∧
      s.release_buffer.prc.p_trans_ = s.prc.p_trans_ ∧ s.release_buffer.raw = s.raw ∧
      s.release_buffer.pending_unit = s.pending_unit ∧ s.release_buffer.state = s.state ∧
      s.release_buffer.prc.bitrate_ = s.prc.bitrate_ ∧
      s.release_buffer.prc.cache_bytes_ = s.prc.cache_bytes_ := by
  unfold source.release_buffer
  split
  · simp
  · split <;> simp

/-- What one emission does: either the port took the buffer, which is then
recorded with the current session number, or nothing was recorded. -/
theorem source.emit_cases (s : source) (b : buffer_header) :
    ((s.emit b).emitted = s.emitted ∧ (s.emit b).prc.eos_ = s.prc.eos_ ∨
      (s.emit b).emitted = s.emitted ++ [(s.session_no, b)] ∧
        (s.emit b).prc.eos_ = (s.prc.eos_ || b.eos)) ∧
      (s.emit b).prc.uri_changed_ = s.prc.uri_changed_ ∧
      (s.emit b).session_no = s.session_no ∧
      (s.emit b).prc.p_trans_ = s.prc.p_trans_ ∧ (s.emit b).raw = s.raw ∧
      (s.emit b).pending_unit = s.pending_unit ∧ (s.emit b).state = s.state ∧
      (s.emit b).prc.bitrate_ = s.prc.bitrate_ ∧
      (s.emit b).prc.cache_bytes_ = s.prc.cache_bytes_ := by
  unfold source.emit
  split
  · simp
  · obtain ⟨h1, h2, h3, h4, h5, h6, h7, h8, h9, h10⟩ := s.release_buffer_fields
    exact ⟨Or.inl ⟨h1, h2⟩, h3, h4, h5, h6, h7, h8, h9, h10⟩

theorem source.copy_and_emit_cases {m : demux_model} {s : source} {h : buffer_header}
    {t : transport_session} (eos : Bool) (ht : s.prc.p_trans_ = some t)
    (hteos : eos = true → t.eos = true ∧ t.cached = []) (hh : h.eos = false)
    (he : s.prc.eos_ = false) (hu : s.prc.uri_changed_ = false) :
    source.quiet s (s.copy_and_emit m eos h) ∨
      ∃ b, source.emits m s (s.copy_and_emit m eos h) b := by
  unfold source.copy_and_emit
  dsimp only
  split
  · rename_i hc
    obtain ⟨hc1, hc2, hc3⟩ := hc
    obtain ⟨hte, htc⟩ := hteos hc1
    obtain ⟨e1, e2, e3, e4, e5, e6, _⟩ := source.emit_cases
      { s with pending_unit := s.pending_unit.drop (h.capacity - h.data.length) }
      { h with data := h.data ++ s.pending_unit.take (h.capacity - h.data.length), eos := true }
    rcases e1 with ⟨e1, e1'⟩ | ⟨e1, e1'⟩
    · left
      exact ⟨e1, fun hx => by rw [e1'] at hx; exact hx⟩
    · right
      refine ⟨{ h with data := h.data ++ s.pending_unit.take (h.capacity - h.data.length),
                       eos := true }, ?_, ?_, ?_, ?_⟩
      · rw [e1, e3]
      · rw [e1']; simp
      · rw [e2]; exact hu
      · intro _
        refine ⟨t, ?_, hte, htc, ?_, ?_⟩
        · rw [e4]; exact ht
        · rw [e6]; exact hc2
        · rw [e5]; exact hc3
  · split
    · obtain ⟨e1, e2, e3, e4, e5, e6, _⟩ := source.emit_cases
        { s with pending_unit := s.pending_unit.drop (h.capacity - h.data.length) }
        { h with data := h.data ++ s.pending_unit.take (h.capacity - h.data.length) }
      rcases e1 with ⟨e1, e1'⟩ | ⟨e1, e1'⟩
      · left
        exact ⟨e1, fun hx => by rw [e1'] at hx; exact hx⟩
      · right
        refine ⟨{ h with data := h.data ++ s.pending_unit.take (h.capacity - h.data.length) },
          ?_, ?_, ?_, ?_⟩
        · rw [e1, e3]
        · rw [e1']; simp [he, hh]
        · rw [e2]; exact hu
        · intro hb
          simp [hh] at hb
    · left
      exact ⟨rfl, fun hx => hx⟩

theorem source.pull_and_fill_cases {m : demux_model} {s : source} (max_len : Nat)
    (hi : s.inv m) (he : s.prc.eos_ = false) (hu : s.prc.uri_changed_ = false) :
    source.quiet s (s.pull_and_fill m max_len) ∨
      ∃ b, source.emits m s (s.pull_and_fill m max_len) b := by
  unfold source.pull_and_fill
  split
  · rename_i t h ht hh
    dsimp only
    split
    · left; exact ⟨rfl, fun hx => hx⟩
    · have key := source.copy_and_emit_cases (m := m) (h := h) (t := (t.read max_len).2.2)
        (s := source.demux m
          { s with prc := { s.prc with p_trans_ := some (t.read max_len).2.2 },
                   raw := s.raw ++ (t.read max_len).1 })
        (t.read max_len).2.1 (by rw [source.demux_prc])
        (by
          intro hx
          simp only [transport_session.read, Bool.and_eq_true, List.isEmpty_iff] at hx ⊢
          exact hx)
        (hi.held_clear h hh).2 (by rw [source.demux_prc]; exact he)
        (by rw [source.demux_prc]; exact hu)
      rcases key with ⟨k1, k2⟩ | ⟨b, k1, k2, k3, k4⟩
      · left
        refine ⟨?_, ?_⟩
        · rw [k1, source.demux_emitted]
        · intro hx
          have := k2 hx
          rw [source.demux_prc] at this
          exact this
      · right
        refine ⟨b, ?_, k2, k3, k4⟩
        rw [k1, source.demux_emitted]
  · left; exact ⟨rfl, fun hx => hx⟩

theorem source.fill_cycle_cases {m : demux_model} {s : source} (max_len : Nat)
    (failure : Option transport_error) (hi : s.inv m) :
    source.quiet s (s.fill_cycle m max_len failure) ∨
      ∃ b, source.emits m s (s.fill_cycle m max_len failure) b := by
  unfold source.fill_cycle
  split
  · left; exact ⟨rfl, fun hx => hx⟩
  · split
    · left; exact ⟨rfl, fun hx => hx⟩
    · rename_i hg
      split
      · left; exact ⟨rfl, fun hx => hx⟩
      · rename_i s0 h0
        have hi0 := source.inv_take_buffer hi h0
        obtain ⟨f1, f2, _, f4, _⟩ := source.take_buffer_fields h0
        have hi1 := source.inv_handle_uri_change failure hi0
        obtain ⟨g1, _, g4, _, _, _, _, g2, g3⟩ := source.handle_uri_change_fields s0 failure
        have he1 : (s0.handle_uri_change failure).prc.eos_ = false := by
          cases hc : s0.prc.uri_changed_
          · rw [g3 hc, f1]
            rw [f2] at hc
            cases he : s.prc.eos_
            · rfl
            · exact absurd ⟨he, hc⟩ hg
          · exact g2 hc
        have hem : (s0.handle_uri_change failure).emitted = s.emitted := by rw [g4, f4]
        dsimp only
        split
        · left
          exact ⟨hem, fun hx => by rw [he1] at hx; cases hx⟩
        · split
          · left
            exact ⟨hem, fun hx => by
              have : (s0.handle_uri_change failure).prc.eos_ = true := hx
              rw [he1] at this; cases this⟩
          · rename_i s2 h2
            obtain ⟨a1, a2, _, a4, _⟩ := source.auto_detect_fields h2
            have key := source.pull_and_fill_cases max_len (source.inv_auto_detect hi1 h2)
              (by rw [a1]; exact he1) (by rw [a2]; exact g1)
            rcases key with ⟨k1, k2⟩ | ⟨b, k1, k2, k3, k4⟩
            · left
              refine ⟨by rw [k1, a4, hem], ?_⟩
              intro hx
              have := k2 hx
              rw [a1, he1] at this
              cases this
            · right
              exact ⟨b, by rw [k1, a4, hem], k2, k3, k4⟩

theorem source.open_transport_fields (s : source) (failure : Option transport_error) :
    (s.open_transport failure).emitted = s.emitted ∧
      (s.open_transport failure).prc.eos_ = s.prc.eos_ ∧
      (s.open_transport failure).prc.uri_changed_ = s.prc.uri_changed_ ∧
      (s.open_transport failure).prc.bitrate_ = s.prc.bitrate_ ∧
      (s.open_transport failure).prc.cache_bytes_ = s.prc.cache_bytes_ ∧
      (s.open_transport failure).prc.p_outhdr_ = s.prc.p_outhdr_ := by
  unfold source.open_transport
  split <;> simp

theorem source.set_state_fields (m : demux_model) (s : source) (target : lifecycle)
    (failure : Option transport_error) :
    (s.set_state m target failure).emitted = s.emitted ∧
      (s.set_state m target failure).prc.eos_ = s.prc.eos_ ∧
      (s.set_state m target failure).prc.uri_changed_ = s.prc.uri_changed_ ∧
      (s.set_state m target failure).prc.bitrate_ = s.prc.bitrate_ ∧
      (s.set_state m target failure).prc.cache_bytes_ = s.prc.cache_bytes_ := by
  unfold source.set_state
  split
  · simp
  · obtain ⟨h1, h2, h3, h4, h5, _⟩ :=
      source.open_transport_fields { s with state := lifecycle.Executing } failure
    exact ⟨h1, h2, h3, h4, h5⟩
  · simp
  · simp
  · obtain ⟨h1, h2, h3, _, _, _, _, _, h9, h10⟩ := source.release_buffer_fields
      { s with state := lifecycle.Idle, prc := { s.prc with p_trans_ := none } }
    exact ⟨h1, h2, h3, h9, h10⟩
  · obtain ⟨h1, h2, h3, _, _, _, _, _, h9, h10⟩ := source.release_buffer_fields
      { s with state := lifecycle.Idle, prc := { s.prc with p_trans_ := none } }
    exact ⟨h1, h2, h3, h9, h10⟩
  · simp
  · simp

/-- Every step is quiet or emits exactly one buffer; only a fill cycle emits. -/
theorem source.step_cases {m : demux_model} {s : source} (ev : event) (hi : s.inv m) :
    source.quiet s (s.step m ev) ∨ ∃ b, source.emits m s (s.step m ev) b := by
  cases ev with
  | FillCycle max_len failure => exact source.fill_cycle_cases max_len failure hi
  | SetState target failure =>
    left
    obtain ⟨h1, h2, _⟩ := source.set_state_fields m s target failure
    exact ⟨h1, fun hx => by rw [← h2]; exact hx⟩
  | Reset =>
    left
    simp only [source.step]
    split
    · obtain ⟨h1, h2, _⟩ := source.release_buffer_fields
        { s with state := lifecycle.Idle, prc := { s.prc with p_trans_ := none } }
      exact ⟨h1, fun hx => by rw [h2] at hx; exact hx⟩
    · exact ⟨rfl, fun hx => hx⟩
  | EnablePort => left; exact ⟨rfl, fun hx => hx⟩
  | DisablePort =>
    left
    obtain ⟨h1, h2, _⟩ := source.release_buffer_fields s
    exact ⟨h1, fun hx => by rw [← h2]; exact hx⟩
  | SetLocator uri mime_hint => left; exact ⟨rfl, fun hx => hx⟩
  | Flush =>
    left
    obtain ⟨h1, h2, _⟩ := source.release_buffer_fields s
    exact ⟨h1, fun hx => by rw [← h2]; exact hx⟩
  | TransportData bytes eos => left; exact ⟨rfl, fun hx => hx⟩
  | TransportFailure =>
    left
    simp only [source.step]
    split <;> exact ⟨rfl, fun hx => hx⟩
  | BitrateEstimate bitrate => left; exact ⟨rfl, fun hx => hx⟩
  | Relend id => left; exact ⟨rfl, fun hx => hx⟩

/-- After end of stream was reported and while no locator change is pending, an
event that is not a state change, reset, flush or locator change emits nothing
and leaves `eos_` set. -/
theorem source.step_after_eos {m : demux_model} {s : source} (ev : event)
    (he : s.prc.eos_ = true) (hu : s.prc.uri_changed_ = false) (hr : ev.resumes = false) :
    (s.step m ev).emitted = s.emitted ∧ (s.step m ev).prc.eos_ = true ∧
      (s.step m ev).prc.uri_changed_ = false := by
  cases ev with
  | FillCycle max_len failure =>
    simp only [source.step, source.fill_cycle]
    split
    · exact ⟨rfl, he, hu⟩
    · rw [if_pos ⟨he, hu⟩]
      exact ⟨rfl, he, hu⟩
  | SetState target failure => cases hr
  | Reset => cases hr
  | SetLocator uri mime_hint => cases hr
  | Flush => cases hr
  | EnablePort => exact ⟨rfl, he, hu⟩
  | DisablePort =>
    obtain ⟨h1, h2, h3, _⟩ := source.release_buffer_fields s
    exact ⟨h1, h2.trans he, h3.trans hu⟩
  | TransportData bytes eos => exact ⟨rfl, he, hu⟩
  | TransportFailure =>
    simp only [source.step]
    split <;> exact ⟨rfl, he, hu⟩
  | BitrateEstimate bitrate => exact ⟨rfl, he, hu⟩
  | Relend id => exact ⟨rfl, he, hu⟩

theorem source.run_after_eos {m : demux_model} (evs : List event) {s : source}
    (he : s.prc.eos_ = true) (hu : s.prc.uri_changed_ = false)
    (hr : ∀ ev ∈ evs, ev.resumes = false) :
    (s.run m evs).emitted = s.emitted ∧ (s.run m evs).prc.eos_ = true := by
  induction evs generalizing s with
  | nil => exact ⟨rfl, he⟩
  | cons ev evs ih =>
    obtain ⟨h1, h2, h3⟩ := source.step_after_eos (m := m) ev he hu
      (hr ev (List.mem_cons_self _ _))
    have := ih h2 h3 (fun e hm => hr e (List.mem_cons_of_mem _ hm))
    exact ⟨by rw [← h1]; exact this.1, this.2⟩

end Mp4Dmux

namespace Mp4Dmux

/-- What step 1 leaves behind when a locator change was pending. -/
theorem source.handle_uri_change_set {s : source} (failure : Option transport_error)
    (hc : s.prc.uri_changed_ = true) :
    (s.handle_uri_change failure).session_no = s.session_no + 1 ∧
      (s.handle_uri_change failure).raw = [] ∧
      (s.handle_uri_change failure).pending_unit = [] ∧
      (s.handle_uri_change failure).prc.eos_ = false ∧
      ((s.handle_uri_change failure).prc.p_trans_ = none ∧
          (s.handle_uri_change failure).state = lifecycle.Error ∨
        (s.handle_uri_change failure).state = s.state ∧
        ∃ t, (s.handle_uri_change failure).prc.p_trans_ = some t ∧
          s.prc.p_uri_ = some t.locator ∧ t.cached = [] ∧ t.eos = false) := by
  unfold source.handle_uri_change
  rw [if_pos hc]
  simp only [source.open_transport]
  split
  · rename_i t ht
    obtain ⟨h1, h2, h3, _⟩ := transport_open_fields ht
    exact ⟨rfl, rfl, rfl, rfl, Or.inr ⟨rfl, t, rfl, h1, h2, h3⟩⟩
  · exact ⟨rfl, rfl, rfl, rfl, Or.inl ⟨rfl, rfl⟩⟩

/-- A fill cycle that finds a locator change pending, and that runs (state
`Executing`, port not disabled, a header at hand), does step 1 and then
yields: the new session has nothing to read yet. -/
theorem source.fill_cycle_uri_changed {m : demux_model} {s s0 : source} (max_len : Nat)
    (failure : Option transport_error) (hc : s.prc.uri_changed_ = true)
    (hs : s.state = lifecycle.Executing) (hp : s.prc.port_disabled_ = false)
    (h0 : s.take_buffer = some s0) :
    s.fill_cycle m max_len failure = s0.handle_uri_change failure := by
  obtain ⟨_, f2, f3, _, _, _, _, _, _, _, _, _, hd, fh⟩ := source.take_buffer_fields h0
  have hc0 : s0.prc.uri_changed_ = true := by rw [f2]; exact hc
  obtain ⟨_, g2, _⟩ := source.handle_uri_change_fields s0 failure
  obtain ⟨_, _, _, _, k⟩ := source.handle_uri_change_set failure hc0
  unfold source.fill_cycle
  rw [if_neg (by simp [hs, hp]), if_neg (by simp [hc]), h0]
  dsimp only
  rcases k with ⟨k1, k2⟩ | ⟨k2, t, k1, _, k3, k4⟩
  · rw [if_pos (by rw [k2]; decide)]
  · rw [if_neg (by rw [k2, f3, hs]; decide)]
    have ha : (s0.handle_uri_change failure).auto_detect m =
        some (s0.handle_uri_change failure) := by
      unfold source.auto_detect
      rw [k1]
      dsimp only
      rw [if_neg (by simp [k3])]
    rw [ha]
    dsimp only
    unfold source.pull_and_fill
    rw [k1, g2, fh]
    dsimp only
    rw [if_pos (by simp [transport_session.read, k3, k4])]

/-- While a locator change is pending no step emits a buffer, and a step that
clears the flag has closed the session, cleared `eos_` and the demux state,
and opened a session for the configured locator (or failed to). -/
theorem source.step_uri_changed {m : demux_model} {s : source} (ev : event)
    (hc : s.prc.uri_changed_ = true) :
    (s.step m ev).emitted = s.emitted ∧
      ((s.step m ev).prc.uri_changed_ = false →
        (s.step m ev).session_no = s.session_no + 1 ∧ (s.step m ev).raw = [] ∧
        (s.step m ev).pending_unit = [] ∧ (s.step m ev).prc.eos_ = false ∧
        ((s.step m ev).prc.p_trans_ = none ∨
          ∃ t, (s.step m ev).prc.p_trans_ = some t ∧ s.prc.p_uri_ = some t.locator ∧
            t.cached = [] ∧ t.eos = false)) := by
  have hne : ∀ b : Bool, b = true → b = false → False := by
    intro b h1 h2; rw [h1] at h2; cases h2
  cases ev with
  | FillCycle max_len failure =>
    simp only [source.step]
    by_cases hg : s.state ≠ lifecycle.Executing ∨ s.prc.port_disabled_ = true
    · have : s.fill_cycle m max_len failure = s := by
        unfold source.fill_cycle; rw [if_pos hg]
      rw [this]
      exact ⟨rfl, fun hx => (hne _ hc hx).elim⟩
    · have hs : s.state = lifecycle.Executing := by
        by_contra hh; exact hg (Or.inl hh)
      have hp : s.prc.port_disabled_ = false := by
        cases hpp : s.prc.port_disabled_
        · rfl
        · exact (hg (Or.inr hpp)).elim
      cases h0 : s.take_buffer with
      | none =>
        have : s.fill_cycle m max_len failure = s := by
          unfold source.fill_cycle
          rw [if_neg hg, if_neg (by simp [hc]), h0]
        rw [this]
        exact ⟨rfl, fun hx => (hne _ hc hx).elim⟩
      | some s0 =>
        rw [source.fill_cycle_uri_changed max_len failure hc hs hp h0]
        obtain ⟨_, f2, _, f4, f5, _, _, _, f9, _⟩ := source.take_buffer_fields h0
        have hc0 : s0.prc.uri_changed_ = true := by rw [f2]; exact hc
        obtain ⟨_, _, g4, _⟩ := source.handle_uri_change_fields s0 failure
        obtain ⟨k1, k2, k3, k4, k5⟩ := source.handle_uri_change_set failure hc0
        refine ⟨by rw [g4, f4], fun _ => ⟨by rw [k1, f5], k2, k3, k4, ?_⟩⟩
        rcases k5 with ⟨k5, _⟩ | ⟨_, t, k5, k6, k7, k8⟩
        · exact Or.inl k5
        · exact Or.inr ⟨t, k5, by rw [← f9]; exact k6, k7, k8⟩
  | SetState target failure =>
    obtain ⟨h1, _, h3, _⟩ := source.set_state_fields m s target failure
    exact ⟨h1, fun hx => (hne _ (h3.trans hc) hx).elim⟩
  | Reset =>
    simp only [source.step]
    split
    · obtain ⟨h1, _, h3, _⟩ := source.release_buffer_fields
        { s with state := lifecycle.Idle, prc := { s.prc with p_trans_ := none } }
      exact ⟨h1, fun hx => (hne _ (h3.trans hc) hx).elim⟩
    · exact ⟨rfl, fun hx => (hne _ hc hx).elim⟩
  | EnablePort => exact ⟨rfl, fun hx => (hne _ hc hx).elim⟩
  | DisablePort =>
    obtain ⟨h1, _, h3, _⟩ := source.release_buffer_fields s
    exact ⟨h1, fun hx => (hne _ (h3.trans hc) hx).elim⟩
  | SetLocator uri mime_hint => exact ⟨rfl, fun hx => by cases hx⟩
  | Flush =>
    obtain ⟨h1, _, h3, _⟩ := source.release_buffer_fields s
    exact ⟨h1, fun hx => (hne _ (h3.trans hc) hx).elim⟩
  | TransportData bytes eos => exact ⟨rfl, fun hx => (hne _ hc hx).elim⟩
  | TransportFailure =>
    simp only [source.step]
    split <;> exact ⟨rfl, fun hx => (hne _ hc hx).elim⟩
  | BitrateEstimate bitrate => exact ⟨rfl, fun hx => (hne _ hc hx).elim⟩
  | Relend id => exact ⟨rfl, fun hx => (hne _ hc hx).elim⟩

end Mp4Dmux

namespace Mp4Dmux

theorem cache_target_bounds (c : cache_config) (h : c.min_cache ≤ c.max_cache) (bitrate : Int) :
    c.min_cache ≤ cache_target c bitrate ∧ cache_target c bitrate ≤ c.max_cache := by
  unfold cache_target
  omega

theorem source.inv_after (m : demux_model) (hint : Option Int) (evs : List event) :
    (source.after m hint evs).inv m :=
  source.inv_run evs (source.inv_init m hint)

theorem source.step_bitrate (m : demux_model) {s : source} (ev : event) (hi : s.inv m) :
    (s.step m ev).prc.cache_bytes_ = cache_size m (s.step m ev).prc.bitrate_ :=
  (source.inv_step ev hi).cache_eq

theorem cache_size_adaptive (m : demux_model) (hmin : INT_MIN ≤ m.cache.min_cache)
    (hwf : m.cache.min_cache ≤ m.cache.max_cache) (hmax : m.cache.max_cache ≤ INT_MAX)
    (ho : m.cache_bytes_override = none) (bitrate : Int) :
    cache_size m bitrate = cache_target m.cache bitrate := by
  have hb := cache_target_bounds m.cache hwf bitrate
  unfold cache_size
  rw [ho]
  exact to_int_of_fits _ (le_trans hmin hb.1) (le_trans hb.2 hmax)

theorem cache_size_override (m : demux_model) (v : Int) (ho : m.cache_bytes_override = some v)
    (bitrate : Int) : cache_size m bitrate = to_int v := by
  unfold cache_size
  rw [ho]

/-- C6: after every sequence of events: (1) the emitted buffers carry session
numbers in order, and a buffer followed by another buffer of the same session
is not flagged end-of-stream, so a session has at most one flagged buffer and
it is the session's last; (2) every further event either emits nothing and
does not newly set `eos_`, or emits exactly one buffer, `eos_` then telling
whether it is flagged, and a flagged buffer leaves a transport session at end
of stream with no byte cached and no unit buffered; (3) once `eos_` is set and
no locator change is pending, events other than a state change, reset, flush
or locator change emit nothing and leave `eos_` set. -/
theorem eos_once_per_session (m : demux_model) (hint : Option Int) (evs : List event) :
    (source.after m hint evs).emitted.Pairwise
      (fun a b => a.1 ≤ b.1 ∧ (a.1 = b.1 → a.2.eos = false)) ∧
    (∀ ev, source.quiet (source.after m hint evs) ((source.after m hint evs).step m ev) ∨
      ∃ b, source.emits m (source.after m hint evs) ((source.after m hint evs).step m ev) b) ∧
    (∀ evs2, (source.after m hint evs).prc.eos_ = true →
      (source.after m hint evs).prc.uri_changed_ = false →
      (∀ ev ∈ evs2, ev.resumes = false) →
      (source.after m hint (evs ++ evs2)).emitted = (source.after m hint evs).emitted ∧
      (source.after m hint (evs ++ evs2)).prc.eos_ = true) := by
  have hi := source.inv_after m hint evs
  refine ⟨?_, fun ev => source.step_cases ev hi, ?_⟩
  · refine hi.eos_last.imp ?_
    intro a b hab
    refine ⟨hab.1, fun he => ?_⟩
    cases hea : a.2.eos
    · rfl
    · have := hab.2 hea
      omega
  · intro evs2 he hu hr
    have := source.run_after_eos (m := m) evs2 he hu hr
    unfold source.after at this ⊢
    rw [source.run_append]
    exact this

/-- C7: after every sequence of events: (1) while `uri_changed_` is set, no
event emits a buffer, the header the processor holds stays unfilled, and an
event that clears the flag has opened a new session (the session count grew
by one), emptied the demux state, cleared `eos_`, and left either no session
(the open failed) or a fresh session for the configured locator with nothing
cached; (2) a fill cycle that runs with the flag set (state `Executing`, port
not disabled, a header at hand) clears `eos_` and `uri_changed_`; (3) all bytes
of an emitted buffer come from one locator. -/
theorem uri_change_reopens (m : demux_model) (hint : Option Int) (evs : List event) :
    (∀ ev, (source.after m hint evs).prc.uri_changed_ = true →
      ((source.after m hint evs).step m ev).emitted = (source.after m hint evs).emitted ∧
      (∀ h, ((source.after m hint evs).step m ev).prc.p_outhdr_ = some h → h.data = []) ∧
      (((source.after m hint evs).step m ev).prc.uri_changed_ = false →
        ((source.after m hint evs).step m ev).session_no =
          (source.after m hint evs).session_no + 1 ∧
        ((source.after m hint evs).step m ev).raw = [] ∧
        ((source.after m hint evs).step m ev).pending_unit = [] ∧
        ((source.after m hint evs).step m ev).prc.eos_ = false ∧
        (((source.after m hint evs).step m ev).prc.p_trans_ = none ∨
          ∃ t, ((source.after m hint evs).step m ev).prc.p_trans_ = some t ∧
            (source.after m hint evs).prc.p_uri_ = some t.locator ∧
            t.cached = [] ∧ t.eos = false))) ∧
    (∀ max_len failure, (source.after m hint evs).prc.uri_changed_ = true →
      (source.after m hint evs).state = lifecycle.Executing →
      (source.after m hint evs).prc.port_disabled_ = false →
      (source.after m hint evs).take_buffer.isSome = true →
      ((source.after m hint evs).fill_cycle m max_len failure).prc.eos_ = false ∧
      ((source.after m hint evs).fill_cycle m max_len failure).prc.uri_changed_ = false) ∧
    (∀ e ∈ (source.after m hint evs).emitted,
      ∀ b1 ∈ e.2.data, ∀ b2 ∈ e.2.data, b1.src = b2.src) := by
  have hi := source.inv_after m hint evs
  refine ⟨?_, ?_, hi.emitted_src⟩
  · intro ev hc
    obtain ⟨h1, h2⟩ := source.step_uri_changed (m := m) ev hc
    exact ⟨h1, fun h hh => ((source.inv_step ev hi).held_clear h hh).1, h2⟩
  · intro max_len failure hc hs hp hb
    cases h0 : (source.after m hint evs).take_buffer with
    | none => rw [h0] at hb; cases hb
    | some s0 =>
      rw [source.fill_cycle_uri_changed max_len failure hc hs hp h0]
      obtain ⟨_, f2, _⟩ := source.take_buffer_fields h0
      obtain ⟨g1, _, _, _, _, _, _, g2, _⟩ := source.handle_uri_change_fields s0 failure
      exact ⟨g2 (by rw [f2]; exact hc), g1⟩

theorem port.apply_pool (p : port) (op : port_op) : (p.apply op).pool = p.pool := by
  cases op with
  | AcquireEmptyBuffer =>
    simp only [port.apply]
    split
    · rename_i r hr
      unfold port.acquire_empty_buffer at hr
      split at hr
      · cases hr
      · split at hr
        · cases hr
        · injection hr with hr
          subst hr
          rfl
    · rfl
  | SubmitFilledBuffer b =>
    simp only [port.apply]
    split
    · rename_i q hq
      unfold port.deliver_filled_buffer at hq
      split at hq
      · cases hq
      · split at hq
        · injection hq with hq
          subst hq
          rfl
        · cases hq
    · rfl
  | ReturnEmptyBuffer b =>
    simp only [port.apply]
    split
    · rename_i q hq
      exact (port.return_fields hq).2.2.2.2
    · rfl
  | Relend id =>
    simp only [port.apply, port.relend]
    split <;> rfl
  | Enable => rfl
  | Disable => rfl

theorem port.run_pool (ops : List port_op) (p : port) : (p.run ops).pool = p.pool := by
  induction ops generalizing p with
  | nil => rfl
  | cons op ops ih =>
    show ((p.apply op).run ops).pool = p.pool
    rw [ih, port.apply_pool]

/-- C8: (1) for a pool of any size and every finite sequence of operations on
its port, the pool keeps the size the Host gave it, the headers in flight plus
those in the empty queue are as many as the pool, so those in flight never
exceed it, no header is lent twice at once, and each header was delivered or
returned unfilled at most as often as it was acquired; (2) after every
sequence of events the headers the port has lent to the processor are exactly
the header `p_outhdr_` points to, at most one, and the same accounting holds
of the processor's port. -/
theorem buffers_accounted (caps : List Nat) (ops : List port_op) (m : demux_model)
    (hint : Option Int) (evs : List event) :
    (((port.allocate caps).run ops).pool.length = caps.length ∧
      ((port.allocate caps).run ops).empty.length + ((port.allocate caps).run ops).in_flight
        = caps.length ∧
      ((port.allocate caps).run ops).in_flight ≤ caps.length ∧
      ((port.allocate caps).run ops).lent.Nodup ∧
      ∀ i, (((port.allocate caps).run ops).delivered.map buffer_header.id).count i +
          ((port.allocate caps).run ops).returned.count i
        ≤ ((port.allocate caps).run ops).acquired.count i) ∧
    ((source.after m hint evs).port.lent =
        ((source.after m hint evs).prc.p_outhdr_.map buffer_header.id).toList ∧
      (source.after m hint evs).port.lent.length ≤ 1 ∧
      (source.after m hint evs).port.in_flight ≤ (source.after m hint evs).port.pool.length ∧
      ∀ i, ((source.after m hint evs).port.delivered.map buffer_header.id).count i +
          (source.after m hint evs).port.returned.count i
        ≤ (source.after m hint evs).port.acquired.count i) := by
  have hp := port.run_inv ops (port.allocate_inv caps)
  have hpool : ((port.allocate caps).run ops).pool.length = caps.length := by
    rw [port.run_pool]; simp [port.allocate]
  have hfl := port.inv_in_flight hp
  have hi := source.inv_after m hint evs
  have hfl2 := port.inv_in_flight hi.port_inv
  refine ⟨⟨hpool, by omega, by omega, port.inv_lent_nodup hp, port.inv_delivered_le hp⟩,
    hi.lent_eq, ?_, by omega, port.inv_delivered_le hi.port_inv⟩
  rw [hi.lent_eq]
  cases (source.after m hint evs).prc.p_outhdr_ <;> simp

/-- Midway through the concrete run, after locator `a` was played to its end:
end of stream has been reported and no locator change is pending; one event
later the change to `b` is pending with the processor executing, the port
enabled and a header at hand. -/
theorem demo_run_states :
    (source.after demo_model none (demo_events.take 10)).prc.eos_ = true ∧
    (source.after demo_model none (demo_events.take 10)).prc.uri_changed_ = false ∧
    (source.after demo_model none (demo_events.take 11)).prc.uri_changed_ = true ∧
    (source.after demo_model none (demo_events.take 11)).state = lifecycle.Executing ∧
    (source.after demo_model none (demo_events.take 11)).prc.port_disabled_ = false ∧
    (source.after demo_model none (demo_events.take 11)).take_buffer.isSome = true := by
  decide

/-- The concrete run emits three buffers of locator `a` in session 2, the
third flagged end-of-stream, then one flagged buffer of locator `b` in
session 3. -/
theorem demo_run_emitted :
    (source.after demo_model none demo_events).emitted_view =
      [(2, 0, false, [("a", 1), ("a", 2)]), (2, 1, false, [("a", 3), ("a", 4)]),
       (2, 2, true, [("a", 5), ("a", 6)]), (3, 3, true, [("b", 7), ("b", 8)])] := by
  decide

end Mp4Dmux
